import Mathlib

/-! InteractionManager (SampleApp) : a shallow embedding

Embedding of `SampleApp/src/InteractionManager.cpp`.

* The four session flags, the wake-word provider, the diagnostics object and the
  file-scope writer handle `m_AudioBufferWriter` form the state `InteractionManager`.
* Every body handed to `m_executor.submit` is a function from the state and the
  answers of the collaborators (`World`) to an `Outcome`: the state afterwards, the
  collaborator calls made, in program order, and the fault raised, if any.
* `int` is the 32-bit two's-complement integer: values are `Int`, narrowing is `toInt32`.
* What a public operation does before and around `m_executor.submit`, on the thread that
  calls it, is `callingThread`.
* The dispatch queue itself (`Executor`) is not part of the file embedded here; it is
  modelled after the specification as a queue with one worker, and a schedule is any order of
  submissions and worker moves. An operation that waits returns when the wait on its task is
  over (`Executor.wait`, `Executor.call`).
-/

namespace alexaClientSDK
namespace sampleApp

/-! ## Files and `readAudioFromFile` -/

/-- Narrowing conversion of an integer value to a 32-bit `int` (two's-complement wrap). -/
def toInt32 (n : Int) : Int := (n + 2 ^ 31) % 2 ^ 32 - 2 ^ 31

/-- The size of the RIFF header, `const int RIFF_HEADER_SIZE = 44`. -/
def RIFF_HEADER_SIZE : Int := 44

/-- A file that `std::ifstream` managed to open: its length in bytes, the byte at each
offset, and the number of bytes the device hands over to a `read` before it fails
(`none`: it never fails). -/
structure InputFile where
  size : Nat
  byteAt : Nat → Nat
  readFault : Option Nat

/-- The result of `inputFile.tellg()` once the stream is positioned at the end. -/
def InputFile.tellgAtEnd (f : InputFile) : Int := (f.size : Int)

/-- The number of bytes `inputFile.read(buf, count)` delivers with the stream positioned at
`pos`, which is what `inputFile.gcount()` returns afterwards. -/
def InputFile.gcount (f : InputFile) (pos count : Nat) : Nat :=
  let available := min count (f.size - pos)
  match f.readFault with
  | none => available
  | some k => min available k

/-- The bytes delivered by `inputFile.read(buf, count)` with the stream positioned at `pos`. -/
def InputFile.read (f : InputFile) (pos count : Nat) : List Nat :=
  (List.range (f.gcount pos count)).map fun i => f.byteAt (pos + i)

/-- One 16-bit little-endian signed sample out of two bytes. -/
def sampleOfBytes (lo hi : Nat) : Int :=
  let u := lo % 256 + 256 * (hi % 256)
  if u < 32768 then (u : Int) else (u : Int) - 65536

/-- The `int16_t` buffer as filled by reading raw bytes into it. -/
def samplesOfBytes : List Nat → List Int
  | lo :: hi :: rest => sampleOfBytes lo hi :: samplesOfBytes rest
  | _ => []

/-- What `readAudioFromFile` leaves behind: the returned vector, the value behind
`errorOccurred` afterwards (`none` when the pointer is null) and the lines sent to `std::cout`. -/
structure ReadResult where
  retVal : List Int
  errorOccurred : Option Bool
  cout : List String
deriving Repr, DecidableEq

/-- The statement `if (errorOccurred) *errorOccurred = v;`. -/
def setError (errorOccurred : Option Bool) (v : Bool) : Option Bool :=
  match errorOccurred with
  | none => none
  | some _ => some v

/-- The function `readAudioFromFile(fileName, errorOccurred)`. The argument `files` is the file
system: `files fileName = none` when the stream is not `good()` after opening. -/
def readAudioFromFile (files : String → Option InputFile) (fileName : String)
    (errorOccurred : Option Bool) : ReadResult :=
  match files fileName with
  | none =>
    { retVal := [], errorOccurred := setError errorOccurred true,
      cout := ["Couldn't open audio file!"] }
  | some inputFile =>
    let fileLengthInBytes : Int := toInt32 inputFile.tellgAtEnd
    if fileLengthInBytes ≤ RIFF_HEADER_SIZE then
      { retVal := [], errorOccurred := setError errorOccurred true,
        cout := ["File should be larger than 44 bytes, which is the size of the RIFF header"] }
    else
      let numSamples : Int := (fileLengthInBytes - RIFF_HEADER_SIZE) / 2
      let delivered := inputFile.read RIFF_HEADER_SIZE.toNat (numSamples * 2).toNat
      if (delivered.length : Int) ≠ numSamples * 2 then
        { retVal := [], errorOccurred := setError errorOccurred true,
          cout := ["Error reading audio file"] }
      else
        { retVal := samplesOfBytes delivered, errorOccurred := setError errorOccurred false,
          cout := [] }

/-! ## Session state, collaborators and outcomes -/

/-- The value of `ChannelVolumeInterface::Type`, kept as the number of the enumerator. -/
abbrev ChannelVolumeType := Nat

/-- The argument `SpeakerManagerInterface::NotificationProperties` of a speaker-manager call:
default-constructed, or built from a source, `notifyAVS` and `notifyOthers`. -/
inductive NotificationProperties where
  | defaulted
  | localApi (notifyAVS notifyOthers : Bool)
deriving Repr, DecidableEq

/-- A `std::future<bool>` as handed back by the speaker manager: without shared state
(`valid()` is false), or valid, in which case `get()` yields its value. These are the two
cases the tasks tell apart. -/
inductive Future where
  | invalid
  | ready (value : Bool)
deriving Repr, DecidableEq

/-- The member function `std::future::valid`. -/
def Future.valid : Future → Bool
  | .invalid => false
  | .ready _ => true

/-- The value that `get()` hands over on a future with shared state. On a future without,
`get()` has failed before a value is looked at. -/
def Future.value : Future → Bool
  | .invalid => false
  | .ready value => value

/-- The diagnostics object behind `m_diagnostics`, when there is one. -/
structure Diagnostics where
  hasAudioInjector : Bool
deriving Repr, DecidableEq

/-- The members of `InteractionManager` the tasks read and write, together with the
file-scope handle `m_AudioBufferWriter` (`none` is `nullptr`). -/
structure InteractionManager where
  m_wakeWordAudioProvider : Bool
  m_diagnostics : Option Diagnostics
  m_isHoldOccurring : Bool
  m_isTapOccurring : Bool
  m_isCallConnected : Bool
  m_isMicOn : Bool
  m_AudioBufferWriter : Option Nat
deriving Repr, DecidableEq

/-- The calls a task makes on its collaborators and the lines it prints. -/
inductive Event where
  | printHelpScreen
  | isStreaming
  | startStreamingMicrophoneData
  | stopStreamingMicrophoneData
  | microphoneOff
  | microphoneOn
  | createWriter
  | notifyOfTapToTalk
  | notifyOfTapToTalkEnd
  | notifyOfHoldToTalkStart
  | notifyOfHoldToTalkEnd
  | cout (line : String)
  | writerWrite (writer : Nat) (audioData : List Int)
  | speakerSetMute (type : ChannelVolumeType) (mute : Bool) (properties : NotificationProperties)
  | speakerAdjustVolume (type : ChannelVolumeType) (delta : Int)
      (properties : NotificationProperties)
  | futureGet (future : Future)
  | acsdkError (reason : String)
  | printAudioInjectionFailureMessage
  | getAudioInjector
  | injectAudio (absoluteFilePath : String)
  | readTokenFromFile
  | curlPerform (request : String) (url : String)
  | prettyPrint (line : String)
  | logout
  | printResetWarning
  | settingsSetValue (setting : String)
  | settingsGetValue (setting : String)
  | getGuiToggleState (toggleName : String)
  | controllerSet (handler : String)
deriving Repr, DecidableEq

/-- The ways a task body can fail instead of running to its end. -/
inductive Fault where
  | futureWithoutState
  | nullWriter
deriving Repr, DecidableEq

/-- The answers of the collaborators during one task; each is asked at most once per task.
The client answers a notification with a success indicator (the value `.get()` yields on the
future it returns); the speaker manager answers with a future; `createWriter` yields a writer
or `nullptr`; `isStreaming` is the answer of the microphone wrapper; `files` is the file
system and `injectAudio` the answer of the audio injector. -/
structure World where
  notifyOfTapToTalk : Bool
  notifyOfHoldToTalkStart : Bool
  isStreaming : Bool
  createWriter : Option Nat
  files : String → Option InputFile
  setMute : ChannelVolumeType → Bool → Future
  adjustVolume : ChannelVolumeType → Int → Future
  injectAudio : String → Bool

/-- What running a task body gives: the state afterwards, the calls made in program order,
and the fault that ended the body early, if any. -/
structure Outcome where
  self : InteractionManager
  calls : List Event
  raised : Option Fault
deriving Repr, DecidableEq

/-- Sequencing of two pieces of a task body: the second runs on the state left by the first,
unless the first raised. -/
def Outcome.andThen (o : Outcome) (k : InteractionManager → Outcome) : Outcome :=
  match o.raised with
  | some _ => o
  | none =>
    let o2 := k o.self
    { self := o2.self, calls := o.calls ++ o2.calls, raised := o2.raised }

/-- A piece of a task body that only makes calls. -/
def perform (self : InteractionManager) (calls : List Event) : Outcome :=
  { self := self, calls := calls, raised := none }

/-- The path constant `SKILL_AUDIO_FILE`. -/
def SKILL_AUDIO_FILE : String := "./inputs/Skill_test.wav"

/-- The path constant `INTRO_AUDIO_FILE`. -/
def INTRO_AUDIO_FILE : String := "./inputs/sentai_intro.wav"

/-! ## The task bodies -/

/-- The member function `sendAudioFileAsRecognize`: reads the file, never looks at `error`, and
writes whatever came back through `m_AudioBufferWriter`. -/
def sendAudioFileAsRecognize (self : InteractionManager) (w : World) (audioFile : String) :
    Outcome :=
  let error : Option Bool := some false
  let read := readAudioFromFile w.files audioFile error
  let printed := read.cout.map Event.cout
  match self.m_AudioBufferWriter with
  | none => { self := self, calls := printed, raised := some Fault.nullWriter }
  | some writer => perform self (printed ++ [Event.writerWrite writer read.retVal])

/-- The statement `if (m_AudioBufferWriter == nullptr) m_AudioBufferWriter = createWriter(...)`. -/
def ensureWriter (self : InteractionManager) (w : World) : Outcome :=
  match self.m_AudioBufferWriter with
  | none => perform { self with m_AudioBufferWriter := w.createWriter } [Event.createWriter]
  | some _ => perform self []

/-- The statement `if (notifyOfTapToTalk(...).get()) { sendAudioFileAsRecognize(f);
m_isTapOccurring = true; }`. -/
def notifyAndSend (self : InteractionManager) (w : World) (audioFile : String) : Outcome :=
  (perform self [Event.notifyOfTapToTalk]).andThen fun self =>
    if w.notifyOfTapToTalk then
      (sendAudioFileAsRecognize self w audioFile).andThen fun self =>
        perform { self with m_isTapOccurring := true } []
    else perform self []

/-- The body submitted by `InteractionManager::help`. -/
def help (self : InteractionManager) (w : World) : Outcome :=
  (perform self [Event.printHelpScreen]).andThen fun self =>
    (ensureWriter self w).andThen fun self =>
      notifyAndSend self w INTRO_AUDIO_FILE

/-- The body submitted by `InteractionManager::microphoneToggle`. -/
def microphoneToggle (self : InteractionManager) (w : World) : Outcome :=
  if !self.m_wakeWordAudioProvider then perform self []
  else if self.m_isMicOn then
    (perform { self with m_isMicOn := false } [Event.isStreaming]).andThen fun self =>
      (if w.isStreaming then perform self [Event.stopStreamingMicrophoneData]
        else perform self []).andThen fun self =>
        perform self [Event.microphoneOff]
  else
    (perform { self with m_isMicOn := true } [Event.isStreaming]).andThen fun self =>
      (if !w.isStreaming && self.m_wakeWordAudioProvider then
          perform self [Event.startStreamingMicrophoneData]
        else perform self []).andThen fun self =>
        perform self [Event.microphoneOn]

/-- The body submitted by `InteractionManager::holdToggled`. -/
def holdToggled (self : InteractionManager) (w : World) : Outcome :=
  if !self.m_isMicOn then perform self []
  else if !self.m_isHoldOccurring then
    (perform self [Event.notifyOfHoldToTalkStart]).andThen fun self =>
      if w.notifyOfHoldToTalkStart then perform { self with m_isHoldOccurring := true } []
      else perform self []
  else
    perform { self with m_isHoldOccurring := false } [Event.notifyOfHoldToTalkEnd]

/-- The body submitted by `InteractionManager::tap`. -/
def tap (self : InteractionManager) (w : World) : Outcome :=
  if !self.m_isMicOn then perform self []
  else if !self.m_isTapOccurring then
    (ensureWriter self w).andThen fun self =>
      notifyAndSend self w SKILL_AUDIO_FILE
  else
    perform { self with m_isTapOccurring := false } [Event.notifyOfTapToTalkEnd]

/-- The call `future.get()`: it needs a future with shared state. -/
def futureGet (self : InteractionManager) (future : Future) : Outcome :=
  match future with
  | .invalid =>
    { self := self, calls := [Event.futureGet future], raised := some Fault.futureWithoutState }
  | .ready _ => perform self [Event.futureGet future]

/-- The body submitted by `InteractionManager::adjustVolume`. -/
def adjustVolume (self : InteractionManager) (w : World) (type : ChannelVolumeType)
    (delta : Int) : Outcome :=
  let unmuteFuture := w.setMute type false
  (perform self [Event.speakerSetMute type false
      (NotificationProperties.localApi false false)]).andThen fun self =>
    if !unmuteFuture.valid then perform self []
    else
      (futureGet self unmuteFuture).andThen fun self =>
        let future := w.adjustVolume type delta
        (perform self [Event.speakerAdjustVolume type delta
            NotificationProperties.defaulted]).andThen fun self =>
          if !future.valid then perform self []
          else futureGet self future

/-- The body submitted by `InteractionManager::setMute`. -/
def setMute (self : InteractionManager) (w : World) (type : ChannelVolumeType) (mute : Bool) :
    Outcome :=
  let future := w.setMute type mute
  (perform self [Event.speakerSetMute type mute NotificationProperties.defaulted]).andThen
    fun self => futureGet self future

/-- The last step of `injectWavFile`: `if (!audioInjector->injectAudio(path)) { print; }`. -/
def injectAudioStep (self : InteractionManager) (w : World) (absoluteFilePath : String) :
    Outcome :=
  (perform self [Event.injectAudio absoluteFilePath]).andThen fun self =>
    if !w.injectAudio absoluteFilePath then perform self [Event.printAudioInjectionFailureMessage]
    else perform self []

/-- The body submitted by `InteractionManager::injectWavFile`. The argument `notified` is the
future that `m_client->notifyOfTapToTalk(...)` hands back; the body calls `get()` on it
without a test of `valid()`. -/
def injectWavFile (self : InteractionManager) (w : World) (notified : Future)
    (absoluteFilePath : String) : Outcome :=
  match self.m_diagnostics with
  | none =>
    perform self [Event.acsdkError "nullDiagnosticObject", Event.printAudioInjectionFailureMessage]
  | some diagnostics =>
    (perform self [Event.getAudioInjector]).andThen fun self =>
      if !diagnostics.hasAudioInjector then
        perform self [Event.acsdkError "nullAudioInjector",
          Event.printAudioInjectionFailureMessage]
      else if !self.m_wakeWordAudioProvider then
        (perform self [Event.notifyOfTapToTalk]).andThen fun self =>
          (futureGet self notified).andThen fun self =>
            if !notified.value then perform self [Event.printAudioInjectionFailureMessage]
            else injectAudioStep self w absoluteFilePath
      else injectAudioStep self w absoluteFilePath

/-- The argument of `onDialogUXStateChanged`: the enumerator `DialogUXState::LISTENING`, or
another enumerator of `DialogUXState`, kept as its number. -/
inductive DialogUXState where
  | LISTENING
  | other (enumerator : Nat)
deriving Repr, DecidableEq

/-- The argument of `onCallStateChange`: the enumerator `CallState::CALL_CONNECTED`, or
another enumerator of `CallState`, kept as its number. -/
inductive CallState where
  | CALL_CONNECTED
  | other (enumerator : Nat)
deriving Repr, DecidableEq

/-- The body submitted by `InteractionManager::onDialogUXStateChanged`. -/
def onDialogUXStateChanged (self : InteractionManager) (w : World) (state : DialogUXState) :
    Outcome :=
  if DialogUXState.LISTENING = state then
    if self.m_isMicOn then
      (perform self [Event.isStreaming]).andThen fun self =>
        if !w.isStreaming then perform self [Event.startStreamingMicrophoneData]
        else perform self []
    else perform self []
  else
    (perform { self with m_isTapOccurring := false } []).andThen fun self =>
      if !self.m_wakeWordAudioProvider && !self.m_isCallConnected then
        (perform self [Event.isStreaming]).andThen fun self =>
          if w.isStreaming then perform self [Event.stopStreamingMicrophoneData]
          else perform self []
      else perform self []

/-- The body submitted by `InteractionManager::onCallStateChange`. -/
def onCallStateChange (self : InteractionManager) (w : World) (state : CallState) : Outcome :=
  if CallState.CALL_CONNECTED = state then
    (perform self [Event.isStreaming]).andThen fun self =>
      (if !w.isStreaming then perform self [Event.startStreamingMicrophoneData]
        else perform self []).andThen fun self =>
        perform { self with m_isCallConnected := true } []
  else
    (perform { self with m_isCallConnected := false } []).andThen fun self =>
      if !self.m_wakeWordAudioProvider && !self.m_isTapOccurring then
        (perform self [Event.isStreaming]).andThen fun self =>
          if w.isStreaming then perform self [Event.stopStreamingMicrophoneData]
          else perform self []
      else perform self []

/-! ## The Flic button task -/

/-- The path constant `FLICDOUBLE_AUDIO_FILE`. -/
def FLICDOUBLE_AUDIO_FILE : String := "./inputs/Flic_double.wav"

/-- The path constant `FLICHOLD_AUDIO_FILE`. -/
def FLICHOLD_AUDIO_FILE : String := "./inputs/Flic_hold.wav"

/-- The path constant `FLICCLICK_AUDIO_FILE`. -/
def FLICCLICK_AUDIO_FILE : String := "./inputs/Flic_single.wav"

/-- The test `haystack.find(needle) != std::string::npos` on character lists. -/
def foundIn (needle : List Char) : List Char → Bool
  | [] => needle.isEmpty
  | c :: rest => needle.isPrefixOf (c :: rest) || foundIn needle rest

/-- The test `response_string.find(needle) != std::string::npos`. -/
def found (response_string needle : String) : Bool :=
  foundIn needle.toList response_string.toList

/-- The statement `line.erase(line.find_last_not_of(" \n\r\t") + 1)`: drops the blanks,
newlines, carriage returns and tabs at the end. -/
def eraseTrailing (line : List Char) : List Char :=
  (line.reverse.dropWhile fun c => c == ' ' || c == '\n' || c == '\r' || c == '\t').reverse

/-- The lines `getline` takes out of a text: the pieces between newlines, without a last
empty piece. -/
def getlines (text : List Char) : List (List Char) :=
  match text.splitOn '\n' with
  | [] => []
  | pieces => if pieces.getLast? = some [] then pieces.dropLast else pieces

/-- The member function `readTokenFromFile`; `tokenFile` is the text of `TOKEN_TEXT_FILE`, or
`none` when it does not open. -/
def readTokenFromFile (tokenFile : Option String) : String :=
  match tokenFile with
  | none => ""
  | some text =>
    String.mk (eraseTrailing ((getlines text.toList).map eraseTrailing).flatten)

/-- One round of the polling loop of `flic`: whether `curl_easy_init` gave a handle for the
request, what the request appended to `response_string`, and whether `curl_easy_init` gave a
handle for the clean-up request that follows a click. -/
structure Poll where
  curl : Bool
  response : String
  delcurl : Bool
deriving Repr, DecidableEq

/-- The surroundings of one `flic` task: the text of the token file, whether the first
`curl_easy_init` gives a handle, the rounds of the loop whose time check finds 30 seconds not
yet over (`polls`), and the round after them, whose time check finds them over. -/
structure FlicWorld where
  tokenFile : Option String
  initcurl : Bool
  polls : List Poll
  lastPoll : Poll
deriving Repr, DecidableEq

/-- The choice of `response_audio` from `response_string`. -/
def responseAudio (response_string : String) : String :=
  if found response_string " click" then FLICCLICK_AUDIO_FILE
  else if found response_string "double_click" then FLICDOUBLE_AUDIO_FILE
  else if found response_string "hold" then FLICHOLD_AUDIO_FILE
  else ""

/-- The request that clears the pushes, made when `curl_easy_init` gave a handle. -/
def deletePushes (self : InteractionManager) (handle : Bool) : Outcome :=
  if handle then perform self [Event.curlPerform "DELETE" "https://api.pushbullet.com/v2/pushes"]
  else perform self []

/-- The part of the loop body of `flic` that runs once `response_audio` is not empty. -/
def flicClicked (self : InteractionManager) (w : World) (poll : Poll)
    (response_audio : String) : Outcome :=
  (deletePushes self poll.delcurl).andThen fun self =>
    if !self.m_isTapOccurring then
      (ensureWriter self w).andThen fun self =>
        notifyAndSend self w response_audio
    else
      perform { self with m_isTapOccurring := false } [Event.notifyOfTapToTalkEnd]

/-- The request of one round of the loop: the text of `response_string` after it, and the
call made. -/
def flicRequest (poll : Poll) (response_string : String) : String × List Event :=
  if poll.curl then
    (response_string ++ poll.response,
      [Event.curlPerform "GET"
        "https://api.pushbullet.com/v2/pushes?active=true&modified_after=1400000000"])
  else (response_string, [])

/-- The round of the loop of `flic` at whose end the 30 seconds are over. -/
def flicLastRound (self : InteractionManager) (w : World) (poll : Poll)
    (response_string : String) : Outcome :=
  let request := flicRequest poll response_string
  (perform self request.2).andThen fun self =>
    if poll.curl && (responseAudio request.1).length > 0 then
      flicClicked self w poll (responseAudio request.1)
    else
      perform self [Event.prettyPrint "+----------Waiting for a click--------------+",
        Event.prettyPrint "+----------No click in 30 seconds--------------+"]

/-- The loop `while (true)` of `flic`, one round for each element of `polls` and then the
last round. -/
def flicLoop (self : InteractionManager) (w : World) (lastPoll : Poll) :
    List Poll → String → Outcome
  | [], response_string => flicLastRound self w lastPoll response_string
  | poll :: polls, response_string =>
    let request := flicRequest poll response_string
    (perform self request.2).andThen fun self =>
      if poll.curl && (responseAudio request.1).length > 0 then
        flicClicked self w poll (responseAudio request.1)
      else
        (perform self
          [Event.prettyPrint "+----------Waiting for a click--------------+"]).andThen
          fun self => flicLoop self w lastPoll polls request.1

/-- The body submitted by `InteractionManager::flic`. -/
def flic (self : InteractionManager) (w : World) (net : FlicWorld) : Outcome :=
  if !self.m_isMicOn then perform self []
  else
    (perform self [Event.readTokenFromFile]).andThen fun self =>
      if readTokenFromFile net.tokenFile != "" then
        (deletePushes self net.initcurl).andThen fun self =>
          flicLoop self w net.lastPoll net.polls ""
      else perform self []

/-- The size of the buffer `std::vector<int16_t> retVal(numSamples, 0)` that
`readAudioFromFile` allocates for a file that opened, or `none` when the header check sends
it away before the allocation. -/
def allocatedSamples (inputFile : InputFile) : Option Int :=
  let fileLengthInBytes : Int := toInt32 inputFile.tellgAtEnd
  if fileLengthInBytes ≤ RIFF_HEADER_SIZE then none
  else
    let numSamples : Int := (fileLengthInBytes - RIFF_HEADER_SIZE) / 2
    some numSamples

/-! ## The public operations and their part on the calling thread -/

/-- The public operations of `InteractionManager`, those behind `#ifdef` included, with the
arguments they are called with. The helper `sendGuiToggleEvent` and the shutdown hook
`doShutdown` are not among them. -/
inductive Operation where
  | begin | help | limitedHelp | settings
  | endpointController | powerController | toggleController | modeController | rangeController
  | locale | alarmVolumeRamp | wakewordConfirmation | speechConfirmation | timeZone
  | networkInfo | networkInfoConnectionTypePrompt | networkInfoESSIDPrompt
  | networkInfoBSSIDPrompt | networkInfoIpPrompt | networkInfoSubnetPrompt
  | networkInfoMacPrompt | networkInfoDHCPPrompt | networkInfoStaticIpPrompt
  | doNotDisturb | errorValue
  | microphoneToggle | holdToggled | tap | flic
  | stopForegroundActivity
  | playbackPlay | playbackPause | playbackNext | playbackPrevious
  | playbackSkipForward | playbackSkipBackward
  | playbackShuffle | playbackLoop | playbackRepeat | playbackThumbsUp | playbackThumbsDown
  | speakerControl | firmwareVersionControl
  | setFirmwareVersion (firmwareVersion : Nat)
  | volumeControl
  | adjustVolume (type : ChannelVolumeType) (delta : Int)
  | setMute (type : ChannelVolumeType) (mute : Bool)
  | confirmResetDevice | resetDevice | confirmReauthorizeDevice
  | commsControl | acceptCall | stopCall | muteCallToggle
  | sendDtmf (dtmfTone : Nat)
  | dtmfControl | errorDtmf
  | onDialogUXStateChanged (state : DialogUXState)
  | onCallStateChange (state : CallState)
  | setSpeechConfirmation (value : Nat)
  | setWakewordConfirmation (value : Nat)
  | setTimeZone (value : String)
  | setLocale (value : List String)
  | getNetworkInfo
  | setNetworkInfo (value : String)
  | setAlarmVolumeRamp (enable : Bool)
  | setPowerState (powerState : Bool)
  | setToggleState (toggleState : Bool)
  | setRangeValue (rangeValue : Int)
  | setMode (mode : String)
  | phoneControl | callId | callerId
  | sendCallActivated (callId : String)
  | sendCallTerminated (callId : String)
  | sendCallFailed (callId : String)
  | sendCallReceived (callId callerId : String)
  | sendCallerIdReceived (callId callerId : String)
  | sendInboundRingingStarted (callId : String)
  | sendOutboundCallRequested (callId : String)
  | sendOutboundRingingStarted (callId : String)
  | sendSendDtmfSucceeded (callId : String)
  | sendSendDtmfFailed (callId : String)
  | meetingControl | sessionId | calendarItemsFile
  | sendMeetingJoined (sessionId : String)
  | sendMeetingEnded (sessionId : String)
  | sendSetCurrentMeetingSession (sessionId : String)
  | sendClearCurrentMeetingSession
  | sendConferenceConfigurationChanged
  | sendMeetingClientErrorOccured (sessionId : String)
  | sendCalendarItemsRetrieved (calendarItemsFile : String)
  | sendCalendarClientErrorOccured
  | setDoNotDisturbMode (enable : Bool)
  | diagnosticsControl | devicePropertiesControl | showDeviceProperties
  | audioInjectionControl
  | injectWavFile (absoluteFilePath : String)
  | deviceProtocolTraceControl | printProtocolTrace
  | setProtocolTraceFlag (enabled : Bool)
  | clearProtocolTrace
  | startMicrophone | stopMicrophone
deriving Repr

/-- What an operation does on the thread that calls it: the state it leaves, the calls it
makes on collaborators there, the number of bodies it hands to `m_executor.submit`, and
whether it then waits on the future of what it submitted. -/
structure CallingThread where
  self : InteractionManager
  calls : List Event
  submitted : Nat
  waits : Bool
deriving Repr, DecidableEq

/-- An operation that consists of one `m_executor.submit(...)`. -/
def submitOnly (self : InteractionManager) : CallingThread :=
  { self := self, calls := [], submitted := 1, waits := false }

/-- An operation that makes its calls itself and submits nothing. -/
def callDirectly (self : InteractionManager) (calls : List Event) : CallingThread :=
  { self := self, calls := calls, submitted := 0, waits := false }

/-- The member function `sendGuiToggleEvent`: with a GUI renderer (`m_guiRenderer` not null)
it reads the state of the toggle on the calling thread, then it submits the body that
presses the toggle. -/
def sendGuiToggleEvent (self : InteractionManager) (m_guiRenderer : Option (String → Bool))
    (toggleName : String) : CallingThread :=
  match m_guiRenderer with
  | none => { self := self, calls := [], submitted := 1, waits := false }
  | some _ =>
    { self := self, calls := [Event.getGuiToggleState toggleName], submitted := 1,
      waits := false }

/-- The part of each public operation that runs on the calling thread. -/
def callingThread (op : Operation) (self : InteractionManager)
    (m_guiRenderer : Option (String → Bool)) : CallingThread :=
  match op with
  | .playbackShuffle => sendGuiToggleEvent self m_guiRenderer "TOGGLE_NAME_SHUFFLE"
  | .playbackLoop => sendGuiToggleEvent self m_guiRenderer "TOGGLE_NAME_LOOP"
  | .playbackRepeat => sendGuiToggleEvent self m_guiRenderer "TOGGLE_NAME_REPEAT"
  | .playbackThumbsUp => sendGuiToggleEvent self m_guiRenderer "TOGGLE_NAME_THUMBSUP"
  | .playbackThumbsDown => sendGuiToggleEvent self m_guiRenderer "TOGGLE_NAME_THUMBSDOWN"
  | .resetDevice => { self := self, calls := [], submitted := 1, waits := true }
  | .setSpeechConfirmation _ => callDirectly self [Event.settingsSetValue "SPEECH_CONFIRMATION"]
  | .setWakewordConfirmation _ =>
    callDirectly self [Event.settingsSetValue "WAKEWORD_CONFIRMATION"]
  | .setTimeZone _ => callDirectly self [Event.settingsSetValue "TIMEZONE"]
  | .setLocale _ => callDirectly self [Event.settingsSetValue "LOCALE"]
  | .getNetworkInfo => callDirectly self [Event.settingsGetValue "NETWORK_INFO"]
  | .setNetworkInfo _ => callDirectly self [Event.settingsSetValue "NETWORK_INFO"]
  | .setAlarmVolumeRamp _ => callDirectly self [Event.settingsSetValue "ALARM_VOLUME_RAMP"]
  | .setPowerState _ => callDirectly self [Event.controllerSet "setPowerState"]
  | .setToggleState _ => callDirectly self [Event.controllerSet "setToggleState"]
  | .setRangeValue _ => callDirectly self [Event.controllerSet "setRangeValue"]
  | .setMode _ => callDirectly self [Event.controllerSet "setMode"]
  | .setDoNotDisturbMode _ => callDirectly self [Event.settingsSetValue "DO_NOT_DISTURB"]
  | .startMicrophone => callDirectly self [Event.startStreamingMicrophoneData]
  | .stopMicrophone => callDirectly self [Event.stopStreamingMicrophoneData]
  | _ => submitOnly self

/-- The operations that the amended C12 names as making their call on the calling thread:
the settings operations, the controller setters and `startMicrophone` / `stopMicrophone`. -/
def Operation.callsOnCallingThread : Operation → Bool
  | .setSpeechConfirmation _ | .setWakewordConfirmation _ | .setTimeZone _ | .setLocale _
  | .getNetworkInfo | .setNetworkInfo _ | .setAlarmVolumeRamp _ | .setDoNotDisturbMode _ => true
  | .setPowerState _ | .setToggleState _ | .setRangeValue _ | .setMode _ => true
  | .startMicrophone | .stopMicrophone => true
  | _ => false

/-- The operations that the amended C12 names as reading the GUI renderer first. -/
def Operation.readsGuiToggle : Operation → Bool
  | .playbackShuffle | .playbackLoop | .playbackRepeat | .playbackThumbsUp
  | .playbackThumbsDown => true
  | _ => false

/-- Recognises a read of the state of a GUI toggle. -/
def Event.isGuiToggleRead : Event → Bool
  | .getGuiToggleState _ => true
  | _ => false

/-- The state `self` with other values in its four session flags. -/
def withFlags (self : InteractionManager) (mic hold tap call : Bool) : InteractionManager :=
  { self with m_isMicOn := mic, m_isHoldOccurring := hold, m_isTapOccurring := tap,
              m_isCallConnected := call }

/-! ## Example states, worlds and files -/

/-- The state right after construction with a wake-word provider and no diagnostics. -/
def freshManager : InteractionManager :=
  { m_wakeWordAudioProvider := true, m_diagnostics := none, m_isHoldOccurring := false,
    m_isTapOccurring := false, m_isCallConnected := false, m_isMicOn := true,
    m_AudioBufferWriter := none }

/-- A world in which the client declines every notification, no audio file can be opened and
the speaker manager hands back futures without shared state. -/
def decliningWorld : World :=
  { notifyOfTapToTalk := false, notifyOfHoldToTalkStart := false, isStreaming := true,
    createWriter := some 1, files := fun _ => none, setMute := fun _ _ => Future.invalid,
    adjustVolume := fun _ _ => Future.invalid, injectAudio := fun _ => false }

/-- A world in which the client accepts every notification and the speaker manager answers,
but no audio file can be opened. -/
def acceptingWorld : World :=
  { notifyOfTapToTalk := true, notifyOfHoldToTalkStart := true, isStreaming := true,
    createWriter := some 1, files := fun _ => none, setMute := fun _ _ => Future.ready true,
    adjustVolume := fun _ _ => Future.ready true, injectAudio := fun _ => true }

/-- A file is fully readable when the device never fails before the end of the file. -/
def InputFile.fullyReadable (f : InputFile) : Bool :=
  match f.readFault with
  | none => true
  | some k => decide (f.size ≤ k)

/-- A file of 2 GiB of silence (2^31 zero bytes) that reads without fault. -/
def twoGiBFile : InputFile := { size := 2 ^ 31, byteAt := fun _ => 0, readFault := none }

/-- A file that holds 50 bytes: the header and three samples. -/
def smallFile : InputFile :=
  { size := 50, byteAt := fun i => (List.replicate 44 0 ++ [1, 0, 255, 255, 0, 128]).getD i 0,
    readFault := none }

/-- A file that stops after 10 bytes, inside the header. -/
def truncatedFile : InputFile := { size := 10, byteAt := fun _ => 7, readFault := none }

/-- A file that holds the 44 header bytes and nothing else. -/
def headerOnlyFile : InputFile := { size := 44, byteAt := fun _ => 0, readFault := none }

/-- An accepting world in which every audio file opens and holds the header only. -/
def headerOnlyWorld : World := { acceptingWorld with files := fun _ => some headerOnlyFile }

/-- An accepting world whose speaker manager hands back futures without shared state. -/
def invalidFutureWorld : World :=
  { acceptingWorld with setMute := fun _ _ => Future.invalid,
                        adjustVolume := fun _ _ => Future.invalid }

/-- A state with diagnostics and an audio injector but no wake-word provider. -/
def injectingManager : InteractionManager :=
  { freshManager with m_wakeWordAudioProvider := false,
                      m_diagnostics := some { hasAudioInjector := true } }

/-- Recognises a call of the speaker manager's `adjustVolume`. -/
def Event.isAdjustVolume : Event → Bool
  | .speakerAdjustVolume _ _ _ => true
  | _ => false

/-- A state without wake-word provider in which a tap is in progress. -/
def tappingManager : InteractionManager :=
  { freshManager with m_wakeWordAudioProvider := false, m_isTapOccurring := true }

/-- A state in which the microphone has been switched off. -/
def mutedManager : InteractionManager := { freshManager with m_isMicOn := false }

/-- A file of 45 bytes: the header and one byte more. -/
def oneByteFile : InputFile := { size := 45, byteAt := fun _ => 0, readFault := none }

/-- The surroundings of a `flic` task in which the button reports a hold in the first round. -/
def holdPressed : FlicWorld :=
  { tokenFile := some "o.token", initcurl := true, polls := [],
    lastPoll := { curl := true, response := "hold", delcurl := true } }

/-- The three tasks that touch the shared writer handle. -/
inductive WriterTask where
  | help
  | tap
  | flic (net : FlicWorld)
deriving Repr, DecidableEq

/-- The body of one of the three tasks. -/
def WriterTask.run (task : WriterTask) (self : InteractionManager) (w : World) : Outcome :=
  match task with
  | .help => sampleApp.help self w
  | .tap => sampleApp.tap self w
  | .flic net => sampleApp.flic self w net

/-- What a piece of a task body does with the writer handle when it goes well: it ends
without a fault; a handle that was there is still the same and `createWriter` was not called;
a handle that was empty is still empty, with no `createWriter` and no write, or was filled by
the one call of `createWriter`; and every write went through the handle that is there at the
end. -/
def WriterKept (self : InteractionManager) (o : Outcome) : Prop :=
  o.raised = none ∧
  (∀ writer, self.m_AudioBufferWriter = some writer →
    o.self.m_AudioBufferWriter = some writer ∧ o.calls.count Event.createWriter = 0) ∧
  (self.m_AudioBufferWriter = none →
    (o.calls.count Event.createWriter = 0 ∧ o.self.m_AudioBufferWriter = none ∧
      ∀ writer audioData, Event.writerWrite writer audioData ∉ o.calls) ∨
    (o.calls.count Event.createWriter = 1 ∧ o.self.m_AudioBufferWriter.isSome = true)) ∧
  (∀ writer audioData, Event.writerWrite writer audioData ∈ o.calls →
    o.self.m_AudioBufferWriter = some writer)

/-- A submitted unit of work: the ticket it got at submission and the steps of its body that
are still to be done. -/
abbrev QueuedTask := Nat × List Event

/-- The steps of a task, each with the ticket of the task. -/
def tagged (task : QueuedTask) : List (Nat × Event) := task.2.map fun step => (task.1, step)

/-- Modelled from the spec: the dispatch queue `m_executor`, whose class `Executor` is not
under src/. After the spec (4.1 and 5) it takes units of work without blocking the caller, and
one worker takes them in submission order and does each from its first step to its last
before it takes the next. The state holds the tasks not yet started, the task the worker is
in, the steps done so far, the tickets of the tasks that are finished (those whose future is
ready), the next ticket, and all tasks ever submitted. -/
structure Executor where
  pending : List QueuedTask
  running : Option QueuedTask
  log : List (Nat × Event)
  completed : List Nat
  nextTicket : Nat
  submitted : List QueuedTask
deriving Repr, DecidableEq

/-- The queue right after construction. -/
def Executor.idle : Executor :=
  { pending := [], running := none, log := [], completed := [], nextTicket := 0,
    submitted := [] }

/-- Modelled from the spec: `m_executor.submit(body)`, which puts the body behind the tasks
already waiting and does not block. -/
def Executor.submit (ex : Executor) (body : List Event) : Executor :=
  { ex with pending := ex.pending ++ [(ex.nextTicket, body)],
            submitted := ex.submitted ++ [(ex.nextTicket, body)],
            nextTicket := ex.nextTicket + 1 }

/-- Modelled from the spec: one move of the worker. In a task, it does the next step, or
finishes the task when no step is left; out of a task, it takes the task at the head of the
queue, if there is one. -/
def Executor.work (ex : Executor) : Executor :=
  match ex.running with
  | some (ticket, step :: rest) =>
    { ex with running := some (ticket, rest), log := ex.log ++ [(ticket, step)] }
  | some (ticket, []) => { ex with running := none, completed := ex.completed ++ [ticket] }
  | none =>
    match ex.pending with
    | [] => ex
    | task :: rest => { ex with pending := rest, running := some task }

/-- What happens around the queue: some thread submits a body, or the worker moves. -/
inductive Action where
  | submit (body : List Event)
  | work
deriving Repr, DecidableEq

/-- One action on the queue. -/
def Executor.step (ex : Executor) : Action → Executor
  | .submit body => ex.submit body
  | .work => ex.work

/-- A schedule: actions in the order in which they happen. -/
def Executor.run (ex : Executor) (schedule : List Action) : Executor :=
  schedule.foldl Executor.step ex

/-- The worker moving `n` times with no submission in between. -/
def Executor.workN (ex : Executor) : Nat → Executor
  | 0 => ex
  | n + 1 => ex.work.workN n

/-- The number of moves the worker needs to finish everything submitted so far. -/
def Executor.remainingWork (ex : Executor) : Nat :=
  (match ex.running with
    | none => 0
    | some task => task.2.length + 1) +
  (ex.pending.map fun task => task.2.length + 2).sum

/-- The body submitted by `InteractionManager::resetDevice`: `logout()` on the registration
manager, then `printResetWarning()`. -/
def resetDeviceBody : List Event := [Event.logout, Event.printResetWarning]

/-- The worker moving on its own until the task with the given ticket is finished, `n` times
at most. -/
def Executor.workUntil (ticket : Nat) : Nat → Executor → Executor
  | 0, ex => ex
  | n + 1, ex => if ticket ∈ ex.completed then ex else Executor.workUntil ticket n ex.work

/-- Modelled from the spec: `result.wait()` on the handle that `submit` gave for the task
with the given ticket, which blocks the calling thread until that task completes. While the
task is not finished the calling thread goes no further; `meanwhile` is what other threads
and the worker do in that time, and when that is used up the worker goes on alone. The
result is the queue at the moment the wait is over. -/
def Executor.wait (ticket : Nat) : Executor → List Action → Executor
  | ex, [] => Executor.workUntil ticket ex.remainingWork ex
  | ex, action :: meanwhile =>
    if ticket ∈ ex.completed then ex else Executor.wait ticket (ex.step action) meanwhile

/-- An operation on the queue from its call to its return, given what it does on the calling
thread: it submits its body if it submits at all, and if it waits, it returns only when the
wait on the task it submitted is over. The result is the queue at the return. -/
def Executor.call (ex : Executor) (thread : CallingThread) (body : List Event)
    (meanwhile : List Action) : Executor :=
  if thread.submitted = 0 then ex
  else if thread.waits then Executor.wait ex.nextTicket (ex.submit body) meanwhile
  else ex.submit body

/-- The member function `resetDevice` from its call to its return: what it does on the
calling thread is taken from `callingThread`, its body is `resetDeviceBody`. -/
def resetDevice (ex : Executor) (self : InteractionManager)
    (m_guiRenderer : Option (String → Bool)) (meanwhile : List Action) : Executor :=
  ex.call (callingThread Operation.resetDevice self m_guiRenderer) resetDeviceBody meanwhile

/-- The ticket of the body that an operation submits when it is called after `before`. -/
def resetDeviceTicket (before : List Action) : Nat := (Executor.idle.run before).nextTicket

/-- The bodies that a schedule submits, in the order of the schedule. -/
def submittedBodies : List Action → List (List Event)
  | [] => []
  | .submit body :: rest => body :: submittedBodies rest
  | .work :: rest => submittedBodies rest

/-- Bodies with the tickets they get when they are submitted one after the other, the first
with the given ticket. -/
def ticketedFrom (ticket : Nat) : List (List Event) → List QueuedTask
  | [] => []
  | body :: rest => (ticket, body) :: ticketedFrom (ticket + 1) rest

/-- The queue after a schedule and then as many moves of the worker as finish everything. -/
def Executor.drained (schedule : List Action) : Executor :=
  (Executor.idle.run schedule).workN (Executor.idle.run schedule).remainingWork

/-- What the queue keeps true: tickets are given in order, and the tasks ever submitted are
those finished, then the one the worker is in, then those waiting, with the log holding the
steps of the finished ones, task by task, and the steps done of the one the worker is in. -/
def Executor.Consistent (ex : Executor) : Prop :=
  ex.submitted.map Prod.fst = List.range ex.nextTicket ∧
  ∃ finished : List QueuedTask, ex.completed = finished.map Prod.fst ∧
    ((ex.running = none ∧ ex.submitted = finished ++ ex.pending ∧
        ex.log = finished.flatMap tagged) ∨
      (∃ ticket stepsDone stepsLeft, ex.running = some (ticket, stepsLeft) ∧
        ex.submitted = finished ++ (ticket, stepsDone ++ stepsLeft) :: ex.pending ∧
        ex.log = finished.flatMap tagged ++ tagged (ticket, stepsDone)))

/-- A schedule around two operations: `help`, then some work, then a body of one step. -/
def busySchedule : List Action :=
  [Action.submit [Event.printHelpScreen, Event.createWriter], Action.work, Action.work,
   Action.submit [Event.microphoneOff]]

/-- The steps the queue still has to do: the rest of the task the worker is in, then the
tasks waiting, in the order of the queue. -/
def Executor.stepsToCome (ex : Executor) : List (Nat × Event) :=
  (match ex.running with
    | none => []
    | some task => tagged task) ++ ex.pending.flatMap tagged

/-- The steps in a log that belong to the task with the given ticket, in the order of the
log. -/
def stepsOf (ticket : Nat) (log : List (Nat × Event)) : List (Nat × Event) :=
  log.filter fun step => decide (step.1 = ticket)

/-! ## Lemmas on the reader -/

/-- Narrowing keeps every length below 2^31. -/
theorem toInt32_of_lt (n : Nat) (h : n < 2 ^ 31) : toInt32 (n : Int) = (n : Int) := by
  unfold toInt32
  norm_num at h ⊢
  omega

/-- Two bytes make one sample. -/
theorem samplesOfBytes_length (bytes : List Nat) :
    (samplesOfBytes bytes).length = bytes.length / 2 := by
  induction bytes using samplesOfBytes.induct with
  | case1 lo hi rest ih =>
    simp only [samplesOfBytes, List.length_cons, ih]
    omega
  | case2 bytes h =>
    match bytes, h with
    | [], _ => simp [samplesOfBytes]
    | [_], _ => simp [samplesOfBytes]
    | a :: b :: rest, h => exact absurd rfl (h a b rest)

/-- A read that stays inside a fully readable file delivers every byte asked for. -/
theorem read_length_of_fullyReadable (f : InputFile) (pos count : Nat)
    (hfull : f.fullyReadable = true) (hcount : pos + count ≤ f.size) :
    (f.read pos count).length = count := by
  unfold InputFile.fullyReadable at hfull
  simp only [InputFile.read, InputFile.gcount, List.length_map, List.length_range]
  cases hf : f.readFault with
  | none => simp only []; omega
  | some k =>
    rw [hf] at hfull
    simp only [decide_eq_true_eq] at hfull ⊢
    omega

/-- Below 2 GiB the reader does what its arithmetic says: a fully readable file of
`N > 44` bytes gives `(N - 44) / 2` samples and clears the error flag. -/
theorem readAudioFromFile_below_two_gib (files : String → Option InputFile) (fileName : String)
    (inputFile : InputFile) (errorOccurred : Option Bool)
    (hopen : files fileName = some inputFile) (hfull : inputFile.fullyReadable = true)
    (hlong : 44 < inputFile.size) (hint : inputFile.size < 2 ^ 31) :
    (readAudioFromFile files fileName errorOccurred).retVal.length
        = (inputFile.size - 44) / 2 ∧
      (readAudioFromFile files fileName errorOccurred).errorOccurred
        = setError errorOccurred false ∧
      (readAudioFromFile files fileName errorOccurred).cout = [] := by
  have hnarrow := toInt32_of_lt inputFile.size hint
  have hsamples : ((inputFile.size : Int) - 44) / 2
      = (((inputFile.size - 44) / 2 : Nat) : Int) := by omega
  have hcount : (((((inputFile.size - 44) / 2 : Nat) : Int) * 2).toNat)
      = (inputFile.size - 44) / 2 * 2 := by omega
  have hread := read_length_of_fullyReadable inputFile 44
    ((inputFile.size - 44) / 2 * 2) hfull (by omega)
  have hgcount : ((((inputFile.size - 44) / 2 * 2 : Nat)) : Int)
      = (((inputFile.size - 44) / 2 : Nat) : Int) * 2 := by
    push_cast; rfl
  have hheader : ¬ ((inputFile.size : Int) ≤ 44) := by omega
  have hpos : (44 : Int).toNat = 44 := rfl
  simp only [readAudioFromFile, hopen, InputFile.tellgAtEnd, hnarrow, RIFF_HEADER_SIZE,
    hheader, if_false, hsamples, hcount, hpos, hgcount, ne_eq, not_true_eq_false,
    samplesOfBytes_length, hread, and_self, and_true]
  omega

/-! ## The claims -/

/-- C1: with the microphone enabled and no tap in progress, a tap whose `notifyOfTapToTalk`
yields false leaves tap-in-progress false and the other three flags as they were, sends no
audio to the writer, does not call `notifyOfTapToTalkEnd`, and ends without a fault. -/
theorem tap_rejected_leaves_session (self : InteractionManager) (w : World)
    (hMic : self.m_isMicOn = true) (hTap : self.m_isTapOccurring = false)
    (hNotify : w.notifyOfTapToTalk = false) :
    (tap self w).self.m_isTapOccurring = false ∧
      (tap self w).self.m_isMicOn = self.m_isMicOn ∧
      (tap self w).self.m_isHoldOccurring = self.m_isHoldOccurring ∧
      (tap self w).self.m_isCallConnected = self.m_isCallConnected ∧
      (∀ writer audioData, Event.writerWrite writer audioData ∉ (tap self w).calls) ∧
      Event.notifyOfTapToTalkEnd ∉ (tap self w).calls ∧
      (tap self w).raised = none := by
  cases hw : self.m_AudioBufferWriter <;>
    simp [tap, ensureWriter, notifyAndSend, perform, Outcome.andThen, hMic, hTap, hNotify, hw]

/-- Instance of C1 at the fresh state with a client that declines. -/
theorem tap_rejected_leaves_session_witness :
    freshManager.m_isMicOn = true ∧ freshManager.m_isTapOccurring = false ∧
      decliningWorld.notifyOfTapToTalk = false ∧
      (tap freshManager decliningWorld).self.m_isTapOccurring = false ∧
      Event.notifyOfTapToTalkEnd ∉ (tap freshManager decliningWorld).calls :=
  have h := tap_rejected_leaves_session freshManager decliningWorld rfl rfl rfl
  ⟨rfl, rfl, rfl, h.1, h.2.2.2.2.2.1⟩

/-- C2, the code at a failing input: a fully readable file of 2^31 bytes (more than 44) is
reported as not larger than the header; no sample comes back and the error flag is set, where
the claim promises `(2^31 - 44) / 2` samples and a cleared flag. -/
theorem readAudioFromFile_two_gib_is_rejected :
    44 < twoGiBFile.size ∧ twoGiBFile.fullyReadable = true ∧
      readAudioFromFile (fun _ => some twoGiBFile) SKILL_AUDIO_FILE (some false)
        = { retVal := [], errorOccurred := some true,
            cout := ["File should be larger than 44 bytes, which is the size of the RIFF header"] }
      ∧ (twoGiBFile.size - 44) / 2 = 1073741802 := by
  refine ⟨?_, ?_, ?_, ?_⟩
  · simp [twoGiBFile]
  · simp [twoGiBFile, InputFile.fullyReadable]
  · simp [readAudioFromFile, twoGiBFile, InputFile.tellgAtEnd, toInt32, RIFF_HEADER_SIZE,
      setError]
  · simp [twoGiBFile]

/-- C3: a file that opens and is shorter than the 44-byte header gives no samples and a
printed report; a non-null error pointer ends up pointing at true, and with a null pointer
the empty vector still comes back. -/
theorem readAudioFromFile_shorter_than_header (files : String → Option InputFile)
    (fileName : String) (inputFile : InputFile) (hopen : files fileName = some inputFile)
    (hshort : inputFile.size < 44) :
    (∀ flag : Bool,
        (readAudioFromFile files fileName (some flag)).retVal = [] ∧
        (readAudioFromFile files fileName (some flag)).errorOccurred = some true) ∧
      (readAudioFromFile files fileName none).retVal = [] ∧
      (readAudioFromFile files fileName none).errorOccurred = none ∧
      (∀ errorOccurred, (readAudioFromFile files fileName errorOccurred).cout
        = ["File should be larger than 44 bytes, which is the size of the RIFF header"]) := by
  have hnarrow := toInt32_of_lt inputFile.size (by omega)
  have hheader : (inputFile.size : Int) ≤ 44 := by omega
  simp [readAudioFromFile, hopen, InputFile.tellgAtEnd, hnarrow, RIFF_HEADER_SIZE, hheader,
    setError]

/-- Instance of C3 at a file of 10 bytes. -/
theorem readAudioFromFile_shorter_than_header_witness :
    truncatedFile.size < 44 ∧
      (readAudioFromFile (fun _ => some truncatedFile) SKILL_AUDIO_FILE (some false)).retVal = [] ∧
      (readAudioFromFile (fun _ => some truncatedFile) SKILL_AUDIO_FILE (some false)).errorOccurred
        = some true ∧
      (readAudioFromFile (fun _ => some truncatedFile) SKILL_AUDIO_FILE none).retVal = [] :=
  have h := readAudioFromFile_shorter_than_header (fun _ => some truncatedFile)
    SKILL_AUDIO_FILE truncatedFile rfl (by decide)
  ⟨by decide, (h.1 false).1, (h.1 false).2, h.2.1⟩

/-- C4, as stated, fails: with a wake-word provider, toggling while the microphone is
enabled turns mic-enabled off. -/
theorem microphoneToggle_enabled_not_noop :
    freshManager.m_isMicOn = true ∧
      (microphoneToggle freshManager acceptingWorld).self.m_isMicOn
        ≠ freshManager.m_isMicOn := by
  decide

/-- C4, amended: from a state with mic-enabled true the toggle leaves hold-in-progress,
tap-in-progress and call-connected as they were; without a wake-word provider it changes
nothing and calls nobody, and with one it sets mic-enabled to false and reports
`microphoneOff`. -/
theorem microphoneToggle_from_enabled (self : InteractionManager) (w : World)
    (hMic : self.m_isMicOn = true) :
    (microphoneToggle self w).self.m_isHoldOccurring = self.m_isHoldOccurring ∧
      (microphoneToggle self w).self.m_isTapOccurring = self.m_isTapOccurring ∧
      (microphoneToggle self w).self.m_isCallConnected = self.m_isCallConnected ∧
      (microphoneToggle self w).self.m_isMicOn = !self.m_wakeWordAudioProvider ∧
      (self.m_wakeWordAudioProvider = false →
        (microphoneToggle self w).self = self ∧ (microphoneToggle self w).calls = []) ∧
      (self.m_wakeWordAudioProvider = true →
        Event.microphoneOff ∈ (microphoneToggle self w).calls) := by
  cases hWake : self.m_wakeWordAudioProvider <;> cases hStream : w.isStreaming <;>
    simp [microphoneToggle, perform, Outcome.andThen, hMic, hWake, hStream]

/-- Instance of C4 (amended) at the fresh state, which has a wake-word provider. -/
theorem microphoneToggle_from_enabled_witness :
    freshManager.m_isMicOn = true ∧
      (microphoneToggle freshManager acceptingWorld).self.m_isMicOn = false ∧
      (microphoneToggle freshManager acceptingWorld).self.m_isHoldOccurring = false :=
  have h := microphoneToggle_from_enabled freshManager acceptingWorld rfl
  ⟨rfl, h.2.2.2.1, h.1⟩

/-- C5, as stated, fails: with the microphone enabled, toggling while a hold is in progress
ends the hold. -/
theorem holdToggled_holding_not_noop :
    ({ freshManager with m_isHoldOccurring := true } : InteractionManager).m_isHoldOccurring
        = true ∧
      (holdToggled { freshManager with m_isHoldOccurring := true }
          acceptingWorld).self.m_isHoldOccurring = false := by
  decide

/-- C5, amended: from a state with hold-in-progress true the toggle leaves mic-enabled,
tap-in-progress and call-connected as they were; with mic-enabled false it changes nothing
and calls nobody, and with mic-enabled true it sets hold-in-progress to false and calls
`notifyOfHoldToTalkEnd` once. -/
theorem holdToggled_from_holding (self : InteractionManager) (w : World)
    (hHold : self.m_isHoldOccurring = true) :
    (holdToggled self w).self.m_isMicOn = self.m_isMicOn ∧
      (holdToggled self w).self.m_isTapOccurring = self.m_isTapOccurring ∧
      (holdToggled self w).self.m_isCallConnected = self.m_isCallConnected ∧
      (holdToggled self w).self.m_isHoldOccurring = !self.m_isMicOn ∧
      (self.m_isMicOn = false →
        (holdToggled self w).self = self ∧ (holdToggled self w).calls = []) ∧
      (self.m_isMicOn = true →
        (holdToggled self w).calls = [Event.notifyOfHoldToTalkEnd]) := by
  cases hMic : self.m_isMicOn <;>
    simp [holdToggled, perform, Outcome.andThen, hMic, hHold]

/-- Instance of C5 (amended) at the fresh state with a hold in progress. -/
theorem holdToggled_from_holding_witness :
    ({ freshManager with m_isHoldOccurring := true } : InteractionManager).m_isHoldOccurring
        = true ∧
      (holdToggled { freshManager with m_isHoldOccurring := true }
          decliningWorld).self.m_isHoldOccurring = false ∧
      (holdToggled { freshManager with m_isHoldOccurring := true }
          decliningWorld).calls = [Event.notifyOfHoldToTalkEnd] :=
  have h := holdToggled_from_holding { freshManager with m_isHoldOccurring := true }
    decliningWorld rfl
  ⟨rfl, h.2.2.2.1, h.2.2.2.2.2 rfl⟩

/-- C6: with the microphone enabled and no hold in progress, a `notifyOfHoldToTalkStart` that
yields false leaves hold-in-progress false, the other three flags as they were and
`notifyOfHoldToTalkEnd` uncalled; one that yields true sets hold-in-progress to true. -/
theorem holdToggled_start (self : InteractionManager) (w : World)
    (hMic : self.m_isMicOn = true) (hHold : self.m_isHoldOccurring = false) :
    (w.notifyOfHoldToTalkStart = false →
        (holdToggled self w).self.m_isHoldOccurring = false ∧
        (holdToggled self w).self.m_isMicOn = self.m_isMicOn ∧
        (holdToggled self w).self.m_isTapOccurring = self.m_isTapOccurring ∧
        (holdToggled self w).self.m_isCallConnected = self.m_isCallConnected ∧
        Event.notifyOfHoldToTalkEnd ∉ (holdToggled self w).calls) ∧
      (w.notifyOfHoldToTalkStart = true →
        (holdToggled self w).self.m_isHoldOccurring = true) := by
  cases hNotify : w.notifyOfHoldToTalkStart <;>
    simp [holdToggled, perform, Outcome.andThen, hMic, hHold, hNotify]

/-- Instance of C6 at the fresh state, once with a declining and once with an accepting client. -/
theorem holdToggled_start_witness :
    freshManager.m_isMicOn = true ∧ freshManager.m_isHoldOccurring = false ∧
      decliningWorld.notifyOfHoldToTalkStart = false ∧
      (holdToggled freshManager decliningWorld).self.m_isHoldOccurring = false ∧
      Event.notifyOfHoldToTalkEnd ∉ (holdToggled freshManager decliningWorld).calls ∧
      acceptingWorld.notifyOfHoldToTalkStart = true ∧
      (holdToggled freshManager acceptingWorld).self.m_isHoldOccurring = true :=
  have hDeclined := (holdToggled_start freshManager decliningWorld rfl rfl).1 rfl
  have hAccepted := (holdToggled_start freshManager acceptingWorld rfl rfl).2 rfl
  ⟨rfl, rfl, rfl, hDeclined.1, hDeclined.2.2.2.2, rfl, hAccepted⟩

/-- C7: when the unmuting `setMute` hands back a future without shared state, the task makes
that one call, does not call the speaker manager's `adjustVolume` and ends without a fault;
when the future is valid, its value is taken and then `adjustVolume(type, delta)` is called,
exactly once. -/
theorem adjustVolume_follows_unmute (self : InteractionManager) (w : World)
    (type : ChannelVolumeType) (delta : Int) :
    (w.setMute type false = Future.invalid →
        (adjustVolume self w type delta).calls
          = [Event.speakerSetMute type false (NotificationProperties.localApi false false)] ∧
        (adjustVolume self w type delta).raised = none ∧
        (adjustVolume self w type delta).self = self) ∧
      (∀ unmuted : Bool, w.setMute type false = Future.ready unmuted →
        ∃ rest : List Event,
          (adjustVolume self w type delta).calls
            = [Event.speakerSetMute type false (NotificationProperties.localApi false false),
               Event.futureGet (Future.ready unmuted),
               Event.speakerAdjustVolume type delta NotificationProperties.defaulted] ++ rest ∧
          rest.countP Event.isAdjustVolume = 0 ∧
          (adjustVolume self w type delta).calls.countP Event.isAdjustVolume = 1 ∧
          (adjustVolume self w type delta).raised = none) := by
  constructor
  · intro hInvalid
    simp [adjustVolume, perform, Outcome.andThen, hInvalid, Future.valid]
  · intro unmuted hReady
    cases hFuture : w.adjustVolume type delta with
    | invalid =>
      refine ⟨[], ?_⟩
      simp [adjustVolume, perform, Outcome.andThen, futureGet, hReady, hFuture, Future.valid,
        Event.isAdjustVolume]
    | ready value =>
      refine ⟨[Event.futureGet (Future.ready value)], ?_⟩
      simp [adjustVolume, perform, Outcome.andThen, futureGet, hReady, hFuture, Future.valid,
        Event.isAdjustVolume]

/-- Instance of C7 at the fresh state, once with an invalid and once with a valid unmute future. -/
theorem adjustVolume_follows_unmute_witness :
    invalidFutureWorld.setMute 0 false = Future.invalid ∧
      (adjustVolume freshManager invalidFutureWorld 0 (-10)).calls
        = [Event.speakerSetMute 0 false (NotificationProperties.localApi false false)] ∧
      (adjustVolume freshManager invalidFutureWorld 0 (-10)).raised = none ∧
      acceptingWorld.setMute 0 false = Future.ready true ∧
      (adjustVolume freshManager acceptingWorld 0 (-10)).calls.countP Event.isAdjustVolume = 1 :=
  have hInvalid := (adjustVolume_follows_unmute freshManager invalidFutureWorld 0 (-10)).1 rfl
  have hValid := (adjustVolume_follows_unmute freshManager acceptingWorld 0 (-10)).2 true rfl
  ⟨rfl, hInvalid.1, hInvalid.2.1, rfl, hValid.elim fun _ h => h.2.2.1⟩

/-- C8, the code at a failing input: when the speaker manager hands back a future without
shared state, the `setMute` task still calls `get()` on it, which is where the task fails. -/
theorem setMute_takes_invalid_future :
    invalidFutureWorld.setMute 0 true = Future.invalid ∧
      setMute freshManager invalidFutureWorld 0 true
        = { self := freshManager,
            calls := [Event.speakerSetMute 0 true NotificationProperties.defaulted,
                      Event.futureGet Future.invalid],
            raised := some Fault.futureWithoutState } := by
  decide

/-- C9, the code at two failing inputs: with the client accepting the tap, an audio file
that cannot be opened, or one that holds the header only, is reported on `std::cout`, and the
task goes on: it writes the empty vector through the writer and sets tap-in-progress. -/
theorem tap_unreadable_file_still_writes :
    tap freshManager acceptingWorld
        = { self := { freshManager with m_isTapOccurring := true,
                                        m_AudioBufferWriter := some 1 },
            calls := [Event.createWriter, Event.notifyOfTapToTalk,
                      Event.cout "Couldn't open audio file!", Event.writerWrite 1 []],
            raised := none } ∧
      tap freshManager headerOnlyWorld
        = { self := { freshManager with m_isTapOccurring := true,
                                        m_AudioBufferWriter := some 1 },
            calls := [Event.createWriter, Event.notifyOfTapToTalk,
                      Event.cout
                        "File should be larger than 44 bytes, which is the size of the RIFF header",
                      Event.writerWrite 1 []],
            raised := none } := by
  constructor <;> rfl

/-- With a valid future from `notifyOfTapToTalk`, or none asked for, `injectWavFile` ends
without a fault; it prints the audio-injection failure message at most once, and exactly once
if and only if the diagnostics object is absent, or its audio injector is absent, or the
wake-word provider is disabled and the future yields false, or `injectAudio` returns false.
In the first three cases `injectAudio` is not called, and in the first two the client is not
notified of tap-to-talk. -/
theorem injectWavFile_with_valid_future (self : InteractionManager) (w : World)
    (yielded : Bool) (absoluteFilePath : String) :
    (injectWavFile self w (Future.ready yielded) absoluteFilePath).raised = none ∧
      (injectWavFile self w (Future.ready yielded) absoluteFilePath).calls.count
          Event.printAudioInjectionFailureMessage ≤ 1 ∧
      ((injectWavFile self w (Future.ready yielded) absoluteFilePath).calls.count
          Event.printAudioInjectionFailureMessage = 1 ↔
        (self.m_diagnostics = none ∨
          self.m_diagnostics = some { hasAudioInjector := false } ∨
          (self.m_wakeWordAudioProvider = false ∧ yielded = false) ∨
          w.injectAudio absoluteFilePath = false)) ∧
      ((self.m_diagnostics = none ∨
          self.m_diagnostics = some { hasAudioInjector := false } ∨
          (self.m_wakeWordAudioProvider = false ∧ yielded = false)) →
        ∀ path, Event.injectAudio path ∉
          (injectWavFile self w (Future.ready yielded) absoluteFilePath).calls) ∧
      ((self.m_diagnostics = none ∨
          self.m_diagnostics = some { hasAudioInjector := false }) →
        Event.notifyOfTapToTalk ∉
          (injectWavFile self w (Future.ready yielded) absoluteFilePath).calls) := by
  rcases hDiag : self.m_diagnostics with _ | ⟨_ | _⟩ <;>
    cases hWake : self.m_wakeWordAudioProvider <;>
    cases yielded <;>
    cases hInject : w.injectAudio absoluteFilePath <;>
    simp [injectWavFile, injectAudioStep, futureGet, Future.value, perform, Outcome.andThen,
      hDiag, hWake, hInject]

/-- The body of `injectWavFile` fails exactly when it gets as far as the notification, that
is with diagnostics, an audio injector and no wake-word provider, and the future handed back
has no shared state. -/
theorem injectWavFile_raises_iff (self : InteractionManager) (w : World) (notified : Future)
    (absoluteFilePath : String) :
    (injectWavFile self w notified absoluteFilePath).raised = some Fault.futureWithoutState ↔
      (self.m_diagnostics = some { hasAudioInjector := true } ∧
        self.m_wakeWordAudioProvider = false ∧ notified = Future.invalid) := by
  rcases hDiag : self.m_diagnostics with _ | ⟨_ | _⟩ <;>
    cases hWake : self.m_wakeWordAudioProvider <;>
    rcases notified with _ | ⟨_ | _⟩ <;>
    cases hInject : w.injectAudio absoluteFilePath <;>
    simp [injectWavFile, injectAudioStep, futureGet, Future.value, perform, Outcome.andThen,
      hDiag, hWake, hInject]

/-- C10, the code at a failing input: with diagnostics, an audio injector and no wake-word
provider, a future without shared state from `notifyOfTapToTalk` is still asked for its
value, which is where the task fails; no failure message is printed and `injectAudio` is not
reached. -/
theorem injectWavFile_takes_invalid_future :
    injectWavFile injectingManager acceptingWorld Future.invalid "/tmp/utterance.wav"
      = { self := injectingManager,
          calls := [Event.getAudioInjector, Event.notifyOfTapToTalk,
                    Event.futureGet Future.invalid],
          raised := some Fault.futureWithoutState } := by
  decide

/-- C15: for a dialog state other than `LISTENING` the task leaves tap-in-progress false and
the other three flags as they were, and stops the microphone exactly when there is no
wake-word provider, no call is connected and the microphone was streaming; for `LISTENING`
it leaves all four flags as they were and starts the microphone exactly when mic-enabled is
true and the microphone was not streaming. -/
theorem onDialogUXStateChanged_effect (self : InteractionManager) (w : World)
    (state : DialogUXState) :
    (state ≠ DialogUXState.LISTENING →
        (onDialogUXStateChanged self w state).self.m_isTapOccurring = false ∧
        (onDialogUXStateChanged self w state).self.m_isMicOn = self.m_isMicOn ∧
        (onDialogUXStateChanged self w state).self.m_isHoldOccurring = self.m_isHoldOccurring ∧
        (onDialogUXStateChanged self w state).self.m_isCallConnected
          = self.m_isCallConnected ∧
        (Event.stopStreamingMicrophoneData ∈ (onDialogUXStateChanged self w state).calls ↔
          (self.m_wakeWordAudioProvider = false ∧ self.m_isCallConnected = false ∧
            w.isStreaming = true))) ∧
      (state = DialogUXState.LISTENING →
        (onDialogUXStateChanged self w state).self.m_isTapOccurring = self.m_isTapOccurring ∧
        (onDialogUXStateChanged self w state).self.m_isMicOn = self.m_isMicOn ∧
        (onDialogUXStateChanged self w state).self.m_isHoldOccurring = self.m_isHoldOccurring ∧
        (onDialogUXStateChanged self w state).self.m_isCallConnected
          = self.m_isCallConnected ∧
        (Event.startStreamingMicrophoneData ∈ (onDialogUXStateChanged self w state).calls ↔
          (self.m_isMicOn = true ∧ w.isStreaming = false))) := by
  cases state with
  | LISTENING =>
    cases hMic : self.m_isMicOn <;> cases hStream : w.isStreaming <;>
      simp [onDialogUXStateChanged, perform, Outcome.andThen, hMic, hStream]
  | other enumerator =>
    cases hWake : self.m_wakeWordAudioProvider <;> cases hCall : self.m_isCallConnected <;>
      cases hStream : w.isStreaming <;>
      simp [onDialogUXStateChanged, perform, Outcome.andThen, hWake, hCall, hStream]

/-- Instance of C15 at a state without wake-word provider and with a tap in progress. -/
theorem onDialogUXStateChanged_effect_witness :
    DialogUXState.other 0 ≠ DialogUXState.LISTENING ∧
      (onDialogUXStateChanged tappingManager acceptingWorld
        (DialogUXState.other 0)).self.m_isTapOccurring = false ∧
      Event.stopStreamingMicrophoneData ∈
        (onDialogUXStateChanged tappingManager acceptingWorld (DialogUXState.other 0)).calls ∧
      (onDialogUXStateChanged tappingManager acceptingWorld
        DialogUXState.LISTENING).self.m_isTapOccurring = true :=
  have hOther := (onDialogUXStateChanged_effect tappingManager acceptingWorld
    (DialogUXState.other 0)).1 (by decide)
  have hListening := (onDialogUXStateChanged_effect tappingManager acceptingWorld
    DialogUXState.LISTENING).2 rfl
  ⟨by decide, hOther.1, hOther.2.2.2.2.2 ⟨rfl, rfl, rfl⟩, hListening.1⟩

/-- C16: after the task call-connected is true exactly when the call state is
`CALL_CONNECTED`; mic-enabled, hold-in-progress and tap-in-progress are as they were; and for
a state other than `CALL_CONNECTED` the microphone is stopped exactly when there is no
wake-word provider, no tap is in progress and the microphone was streaming. -/
theorem onCallStateChange_effect (self : InteractionManager) (w : World) (state : CallState) :
    ((onCallStateChange self w state).self.m_isCallConnected = true ↔
        state = CallState.CALL_CONNECTED) ∧
      (onCallStateChange self w state).self.m_isMicOn = self.m_isMicOn ∧
      (onCallStateChange self w state).self.m_isHoldOccurring = self.m_isHoldOccurring ∧
      (onCallStateChange self w state).self.m_isTapOccurring = self.m_isTapOccurring ∧
      (state ≠ CallState.CALL_CONNECTED →
        (Event.stopStreamingMicrophoneData ∈ (onCallStateChange self w state).calls ↔
          (self.m_wakeWordAudioProvider = false ∧ self.m_isTapOccurring = false ∧
            w.isStreaming = true))) := by
  cases state with
  | CALL_CONNECTED =>
    cases hStream : w.isStreaming <;>
      simp [onCallStateChange, perform, Outcome.andThen, hStream]
  | other enumerator =>
    cases hWake : self.m_wakeWordAudioProvider <;> cases hTap : self.m_isTapOccurring <;>
      cases hStream : w.isStreaming <;>
      simp [onCallStateChange, perform, Outcome.andThen, hWake, hTap, hStream]

/-- Instance of C16 at a state without wake-word provider and with a tap in progress. -/
theorem onCallStateChange_effect_witness :
    (onCallStateChange tappingManager acceptingWorld
        CallState.CALL_CONNECTED).self.m_isCallConnected = true ∧
      CallState.other 3 ≠ CallState.CALL_CONNECTED ∧
      Event.stopStreamingMicrophoneData ∉
        (onCallStateChange tappingManager acceptingWorld (CallState.other 3)).calls :=
  have hConnected := onCallStateChange_effect tappingManager acceptingWorld
    CallState.CALL_CONNECTED
  have hOther := onCallStateChange_effect tappingManager acceptingWorld (CallState.other 3)
  ⟨hConnected.1.2 rfl, by decide,
    fun hStopped => Bool.noConfusion ((hOther.2.2.2.2 (by decide)).1 hStopped).2.1⟩

/-- C17: with mic-enabled false the bodies of `holdToggled`, `tap` and `flic` end at their
first test: the state, with its four flags and the writer handle, is as it was, no call is
made and no fault is raised. -/
theorem mic_off_tasks_return_at_once (self : InteractionManager) (w : World) (net : FlicWorld)
    (hMic : self.m_isMicOn = false) :
    holdToggled self w = { self := self, calls := [], raised := none } ∧
      tap self w = { self := self, calls := [], raised := none } ∧
      flic self w net = { self := self, calls := [], raised := none } := by
  simp [holdToggled, tap, flic, perform, hMic]

/-- Instance of C17 at the muted state, with a button that reports a hold. -/
theorem mic_off_tasks_return_at_once_witness :
    mutedManager.m_isMicOn = false ∧
      (flic mutedManager acceptingWorld holdPressed).calls = [] ∧
      (tap mutedManager acceptingWorld).self.m_AudioBufferWriter
        = mutedManager.m_AudioBufferWriter ∧
      (holdToggled mutedManager acceptingWorld).self = mutedManager :=
  have h := mic_off_tasks_return_at_once mutedManager acceptingWorld holdPressed rfl
  ⟨rfl, congrArg Outcome.calls h.2.2, congrArg (fun o => o.self.m_AudioBufferWriter) h.2.1,
    congrArg Outcome.self h.1⟩

/-- From 46 bytes on, and below 2 GiB, the buffer that is allocated is not empty. -/
theorem allocatedSamples_pos (inputFile : InputFile) (hlong : 46 ≤ inputFile.size)
    (hint : inputFile.size < 2 ^ 31) :
    ∃ numSamples : Int, allocatedSamples inputFile = some numSamples ∧ 0 < numSamples := by
  have hnarrow := toInt32_of_lt inputFile.size hint
  have hheader : ¬ ((inputFile.size : Int) ≤ 44) := by omega
  refine ⟨((inputFile.size : Int) - 44) / 2, ?_, by omega⟩
  simp [allocatedSamples, InputFile.tellgAtEnd, hnarrow, RIFF_HEADER_SIZE, hheader]

/-- C18, the code at a failing input: a file of 45 bytes passes the header check, the buffer
allocated for it has no element, so index 0 is not an index of it, and the function goes on
to the read step and returns the empty vector with the error flag cleared. -/
theorem allocatedSamples_one_byte_file :
    (44 : Int) < toInt32 oneByteFile.tellgAtEnd ∧
      allocatedSamples oneByteFile = some 0 ∧
      readAudioFromFile (fun _ => some oneByteFile) SKILL_AUDIO_FILE (some true)
        = { retVal := [], errorOccurred := some false, cout := [] } := by
  decide

/-! ## The writer handle over a run of tasks -/

/-- Two pieces that keep the writer, one after the other, keep it. -/
theorem WriterKept.andThen (self : InteractionManager) (o : Outcome)
    (k : InteractionManager → Outcome) (h1 : WriterKept self o)
    (h2 : WriterKept o.self (k o.self)) : WriterKept self (o.andThen k) := by
  obtain ⟨hraised1, hsome1, hnone1, hwrites1⟩ := h1
  obtain ⟨hraised2, hsome2, hnone2, hwrites2⟩ := h2
  have hrun : o.andThen k
      = { self := (k o.self).self, calls := o.calls ++ (k o.self).calls,
          raised := (k o.self).raised } := by
    simp [Outcome.andThen, hraised1]
  rw [hrun]
  refine ⟨hraised2, ?_, ?_, ?_⟩
  · intro writer hw
    obtain ⟨hmid, hc1⟩ := hsome1 writer hw
    obtain ⟨hend, hc2⟩ := hsome2 writer hmid
    exact ⟨hend, by simp [List.count_append, hc1, hc2]⟩
  · intro hw
    rcases hnone1 hw with ⟨hc1, hmid, hno1⟩ | ⟨hc1, hmid⟩
    · rcases hnone2 hmid with ⟨hc2, hend, hno2⟩ | ⟨hc2, hend⟩
      · left
        refine ⟨by simp [List.count_append, hc1, hc2], hend, ?_⟩
        intro writer audioData hmem
        rcases List.mem_append.1 hmem with hm | hm
        · exact hno1 _ _ hm
        · exact hno2 _ _ hm
      · right
        exact ⟨by simp [List.count_append, hc1, hc2], hend⟩
    · right
      obtain ⟨writer, hwriter⟩ := Option.isSome_iff_exists.1 hmid
      obtain ⟨hend, hc2⟩ := hsome2 writer hwriter
      exact ⟨by simp [List.count_append, hc1, hc2], by simp [hend]⟩
  · intro writer audioData hmem
    rcases List.mem_append.1 hmem with hm | hm
    · exact (hsome2 writer (hwrites1 _ _ hm)).1
    · exact hwrites2 _ _ hm

/-- Without a writer behind the handle, `sendAudioFileAsRecognize` fails at the write. -/
theorem sendAudioFileAsRecognize_without_writer (self : InteractionManager) (w : World)
    (audioFile : String) (hempty : self.m_AudioBufferWriter = none) :
    (sendAudioFileAsRecognize self w audioFile).raised = some Fault.nullWriter := by
  simp [sendAudioFileAsRecognize, hempty]

/-- C11: the part of every public operation that runs on the calling thread leaves the state,
and with it the four session flags, as it was, and what it does there (the calls it makes,
whether it submits, whether it waits) is the same whatever the four flags hold. -/
theorem callingThread_leaves_flags (op : Operation) (self : InteractionManager)
    (m_guiRenderer : Option (String → Bool)) (mic hold tap call : Bool) :
    (callingThread op self m_guiRenderer).self.m_isMicOn = self.m_isMicOn ∧
      (callingThread op self m_guiRenderer).self.m_isHoldOccurring = self.m_isHoldOccurring ∧
      (callingThread op self m_guiRenderer).self.m_isTapOccurring = self.m_isTapOccurring ∧
      (callingThread op self m_guiRenderer).self.m_isCallConnected = self.m_isCallConnected ∧
      (callingThread op (withFlags self mic hold tap call) m_guiRenderer).calls
        = (callingThread op self m_guiRenderer).calls ∧
      (callingThread op (withFlags self mic hold tap call) m_guiRenderer).submitted
        = (callingThread op self m_guiRenderer).submitted ∧
      (callingThread op (withFlags self mic hold tap call) m_guiRenderer).waits
        = (callingThread op self m_guiRenderer).waits := by
  cases op <;> cases m_guiRenderer <;>
    simp [callingThread, sendGuiToggleEvent, callDirectly, submitOnly]

/-- C12, as stated, fails: `setTimeZone` calls the settings manager on the calling thread and
submits no task. -/
theorem setTimeZone_calls_on_calling_thread :
    (callingThread (Operation.setTimeZone "Europe/Berlin") freshManager none).calls
        = [Event.settingsSetValue "TIMEZONE"] ∧
      (callingThread (Operation.setTimeZone "Europe/Berlin") freshManager none).submitted = 0 := by
  decide

/-- C12, amended: the settings operations, the controller setters and `startMicrophone` /
`stopMicrophone` make one call on the calling thread and submit nothing; the five playback
toggles submit one body after at most one call, a read of the GUI toggle, made only when
there is a renderer; every other operation makes no call on the calling thread and submits
one body; and `resetDevice` is the only operation that waits. -/
theorem callingThread_by_operation (op : Operation) (self : InteractionManager)
    (m_guiRenderer : Option (String → Bool)) :
    (op.callsOnCallingThread = true →
        (callingThread op self m_guiRenderer).calls.length = 1 ∧
        (callingThread op self m_guiRenderer).submitted = 0) ∧
      (op.readsGuiToggle = true →
        (callingThread op self m_guiRenderer).submitted = 1 ∧
        (callingThread op self m_guiRenderer).calls.length
          = (if m_guiRenderer.isSome then 1 else 0) ∧
        (callingThread op self m_guiRenderer).calls.all Event.isGuiToggleRead = true) ∧
      (op.callsOnCallingThread = false → op.readsGuiToggle = false →
        (callingThread op self m_guiRenderer).calls = [] ∧
        (callingThread op self m_guiRenderer).submitted = 1) ∧
      ((callingThread op self m_guiRenderer).waits = true ↔ op = Operation.resetDevice) := by
  cases op <;> cases m_guiRenderer <;>
    simp [callingThread, sendGuiToggleEvent, callDirectly, submitOnly,
      Operation.callsOnCallingThread, Operation.readsGuiToggle, Event.isGuiToggleRead]

/-- Instance of C12 (amended) at `stopMicrophone`, `playbackLoop` and `tap`. -/
theorem callingThread_by_operation_witness :
    (callingThread Operation.stopMicrophone freshManager none).submitted = 0 ∧
      (callingThread Operation.playbackLoop freshManager (some fun _ => true)).calls.length = 1 ∧
      (callingThread Operation.tap freshManager none).calls = [] ∧
      (callingThread Operation.tap freshManager none).submitted = 1 :=
  have hDirect := (callingThread_by_operation Operation.stopMicrophone freshManager none).1 rfl
  have hToggle := (callingThread_by_operation Operation.playbackLoop freshManager
    (some fun _ => true)).2.1 rfl
  have hTask := (callingThread_by_operation Operation.tap freshManager none).2.2.1 rfl rfl
  ⟨hDirect.2, hToggle.2.1, hTask.1, hTask.2⟩

/-! ## The dispatch queue keeps its order -/

/-- The queue is consistent right after construction. -/
theorem Executor.idle_consistent : Executor.idle.Consistent := by
  refine ⟨by simp [Executor.idle], [], by simp [Executor.idle], Or.inl ?_⟩
  simp [Executor.idle]

/-- A submission keeps the queue consistent. -/
theorem Executor.Consistent.submit {ex : Executor} (h : ex.Consistent) (body : List Event) :
    (ex.submit body).Consistent := by
  obtain ⟨htickets, finished, hcompleted, hstate⟩ := h
  refine ⟨by simp [Executor.submit, htickets, List.range_succ], finished, hcompleted, ?_⟩
  rcases hstate with ⟨hrun, hsub, hlog⟩ | ⟨ticket, stepsDone, stepsLeft, hrun, hsub, hlog⟩
  · exact Or.inl ⟨hrun, by simp [Executor.submit, hsub], hlog⟩
  · exact Or.inr ⟨ticket, stepsDone, stepsLeft, hrun, by simp [Executor.submit, hsub], hlog⟩

/-- A move of the worker keeps the queue consistent. -/
theorem Executor.Consistent.work {ex : Executor} (h : ex.Consistent) : ex.work.Consistent := by
  obtain ⟨htickets, finished, hcompleted, hstate⟩ := h
  rcases hstate with ⟨hrun, hsub, hlog⟩ | ⟨ticket, stepsDone, stepsLeft, hrun, hsub, hlog⟩
  · cases hpending : ex.pending with
    | nil =>
      have hwork : ex.work = ex := by simp [Executor.work, hrun, hpending]
      rw [hwork]
      exact ⟨htickets, finished, hcompleted, Or.inl ⟨hrun, hsub, hlog⟩⟩
    | cons task rest =>
      refine ⟨by simpa [Executor.work, hrun, hpending] using htickets, finished,
        by simpa [Executor.work, hrun, hpending] using hcompleted, Or.inr ?_⟩
      refine ⟨task.1, [], task.2, ?_, ?_, ?_⟩
      · simp [Executor.work, hrun, hpending]
      · simp [Executor.work, hrun, hpending, hsub]
      · simp [Executor.work, hrun, hpending, hlog, tagged]
  · cases stepsLeft with
    | nil =>
      refine ⟨by simpa [Executor.work, hrun] using htickets, finished ++ [(ticket, stepsDone)],
        by simp [Executor.work, hrun, hcompleted], Or.inl ?_⟩
      refine ⟨by simp [Executor.work, hrun], ?_, ?_⟩
      · simpa [Executor.work, hrun] using hsub
      · simp [Executor.work, hrun, hlog, List.flatMap_append]
    | cons step rest =>
      refine ⟨by simpa [Executor.work, hrun] using htickets, finished,
        by simpa [Executor.work, hrun] using hcompleted, Or.inr ?_⟩
      refine ⟨ticket, stepsDone ++ [step], rest, by simp [Executor.work, hrun], ?_, ?_⟩
      · simpa [Executor.work, hrun] using hsub
      · simp [Executor.work, hrun, hlog, tagged]

/-- Every schedule keeps the queue consistent. -/
theorem Executor.Consistent.run {ex : Executor} (h : ex.Consistent) (schedule : List Action) :
    (ex.run schedule).Consistent := by
  induction schedule generalizing ex with
  | nil => exact h
  | cons action rest ih =>
    cases action with
    | submit body => exact ih (h.submit body)
    | work => exact ih h.work

/-- Moves of the worker keep the queue consistent. -/
theorem Executor.Consistent.workN {ex : Executor} (h : ex.Consistent) (n : Nat) :
    (ex.workN n).Consistent := by
  induction n generalizing ex with
  | zero => exact h
  | succ n ih => exact ih h.work

/-- The steps of a task that is not among the tasks are not among their steps. -/
theorem stepsOf_flatMap_of_not_mem (ticket : Nat) (tasks : List QueuedTask)
    (h : ticket ∉ tasks.map Prod.fst) : stepsOf ticket (tasks.flatMap tagged) = [] := by
  simp only [stepsOf, List.filter_eq_nil_iff, List.mem_flatMap, tagged, List.mem_map]
  rintro step ⟨task, htask, s, -, rfl⟩
  simp only [decide_eq_true_eq]
  rintro rfl
  exact h (List.mem_map.2 ⟨task, htask, rfl⟩)

/-- The steps of one task, taken out of a log. -/
theorem stepsOf_tagged (ticket : Nat) (task : QueuedTask) :
    stepsOf ticket (tagged task) = if task.1 = ticket then tagged task else [] := by
  by_cases h : task.1 = ticket
  · simp [stepsOf, tagged, h]
  · simp [stepsOf, tagged, h]

/-- With tickets given once, the steps of a task among the tasks are its own steps. -/
theorem stepsOf_flatMap_of_mem (ticket : Nat) (body : List Event) (tasks : List QueuedTask)
    (hnodup : (tasks.map Prod.fst).Nodup) (hmem : (ticket, body) ∈ tasks) :
    stepsOf ticket (tasks.flatMap tagged) = tagged (ticket, body) := by
  induction tasks with
  | nil => simp at hmem
  | cons task rest ih =>
    simp only [List.map_cons, List.nodup_cons] at hnodup
    have happ : stepsOf ticket ((task :: rest).flatMap tagged)
        = stepsOf ticket (tagged task) ++ stepsOf ticket (rest.flatMap tagged) := by
      simp [stepsOf, List.flatMap_cons]
    rw [happ, stepsOf_tagged]
    rcases List.mem_cons.1 hmem with heq | hrest
    · subst heq
      simp [stepsOf_flatMap_of_not_mem _ _ hnodup.1]
    · have hne : task.1 ≠ ticket := by
        rintro rfl
        exact hnodup.1 (List.mem_map.2 ⟨_, hrest, rfl⟩)
      simp [hne, ih hnodup.2 hrest]

/-- A move of the worker does not touch what was submitted. -/
theorem Executor.work_submitted (ex : Executor) :
    ex.work.submitted = ex.submitted ∧ ex.work.nextTicket = ex.nextTicket := by
  unfold Executor.work
  split
  · exact ⟨rfl, rfl⟩
  · exact ⟨rfl, rfl⟩
  · split <;> exact ⟨rfl, rfl⟩

/-- Moves of the worker do not touch what was submitted. -/
theorem Executor.workN_submitted (n : Nat) :
    ∀ ex : Executor, (ex.workN n).submitted = ex.submitted := by
  induction n with
  | zero => intro ex; rfl
  | succ n ih => intro ex; simp [Executor.workN, ih, ex.work_submitted.1]

/-- What was submitted stays submitted, in its place. -/
theorem Executor.run_submitted (schedule : List Action) :
    ∀ ex : Executor, ∃ later, (ex.run schedule).submitted = ex.submitted ++ later := by
  induction schedule with
  | nil => intro ex; exact ⟨[], by simp [Executor.run]⟩
  | cons action rest ih =>
    intro ex
    obtain ⟨later, hlater⟩ := ih (ex.step action)
    cases action with
    | submit body =>
      refine ⟨(ex.nextTicket, body) :: later, ?_⟩
      simpa [Executor.run, Executor.step, Executor.submit] using hlater
    | work =>
      refine ⟨later, ?_⟩
      simpa [Executor.run, Executor.step, ex.work_submitted.1] using hlater

/-- Each move of the worker that has something to do takes one off the work that remains. -/
theorem Executor.work_remainingWork (ex : Executor) :
    ex.work.remainingWork = ex.remainingWork - 1 := by
  cases hrun : ex.running with
  | none =>
    cases hpending : ex.pending with
    | nil => simp [Executor.work, Executor.remainingWork, hrun, hpending]
    | cons task rest =>
      simp [Executor.work, Executor.remainingWork, hrun, hpending]
  | some task =>
    obtain ⟨ticket, steps⟩ := task
    cases steps with
    | nil => simp [Executor.work, Executor.remainingWork, hrun]
    | cons step rest => simp [Executor.work, Executor.remainingWork, hrun]

/-- With no work remaining the worker is out of a task and the queue is empty. -/
theorem Executor.idle_of_remainingWork (ex : Executor) (h : ex.remainingWork = 0) :
    ex.running = none ∧ ex.pending = [] := by
  unfold Executor.remainingWork at h
  cases hrun : ex.running with
  | some task => simp [hrun] at h
  | none =>
    cases hpending : ex.pending with
    | nil => exact ⟨rfl, rfl⟩
    | cons task rest => simp [hrun, hpending] at h

/-- Enough moves of the worker finish everything. -/
theorem Executor.workN_drains (n : Nat) :
    ∀ ex : Executor, ex.remainingWork ≤ n →
      (ex.workN n).running = none ∧ (ex.workN n).pending = [] := by
  induction n with
  | zero =>
    intro ex h
    exact ex.idle_of_remainingWork (by omega)
  | succ n ih =>
    intro ex h
    exact ih ex.work (by rw [ex.work_remainingWork]; omega)

/-- When the worker is out of a task and the queue is empty, every task submitted has been
done, in submission order, and is finished. -/
theorem Executor.Consistent.drained {ex : Executor} (h : ex.Consistent)
    (hrun : ex.running = none) (hpending : ex.pending = []) :
    ex.log = ex.submitted.flatMap tagged ∧ ex.completed = ex.submitted.map Prod.fst := by
  obtain ⟨-, finished, hcompleted, hstate⟩ := h
  rcases hstate with ⟨-, hsub, hlog⟩ | ⟨ticket, stepsDone, stepsLeft, hrun2, -, -⟩
  · have hall : ex.submitted = finished := by simp [hsub, hpending]
    exact ⟨by rw [hall, hlog], by rw [hall, hcompleted]⟩
  · rw [hrun] at hrun2
    cases hrun2

/-- The steps done and the steps to come are the steps submitted, task by task. -/
theorem Executor.Consistent.log_stepsToCome {ex : Executor} (h : ex.Consistent) :
    ex.log ++ ex.stepsToCome = ex.submitted.flatMap tagged := by
  obtain ⟨-, finished, -, hstate⟩ := h
  rcases hstate with ⟨hrun, hsub, hlog⟩ | ⟨ticket, stepsDone, stepsLeft, hrun, hsub, hlog⟩
  · simp [Executor.stepsToCome, hrun, hsub, hlog, List.flatMap_append]
  · simp [Executor.stepsToCome, hrun, hsub, hlog, List.flatMap_append, tagged]

/-- One action keeps the queue consistent. -/
theorem Executor.Consistent.step {ex : Executor} (h : ex.Consistent) (action : Action) :
    (ex.step action).Consistent := by
  cases action with
  | submit body => exact h.submit body
  | work => exact h.work

/-- One action leaves what was submitted in its place. -/
theorem Executor.step_submitted (ex : Executor) (action : Action) (task : QueuedTask)
    (h : task ∈ ex.submitted) : task ∈ (ex.step action).submitted := by
  cases action with
  | submit body => simp [Executor.step, Executor.submit, h]
  | work => simpa [Executor.step, ex.work_submitted.1] using h

/-- A finished task of a consistent queue has its steps in the log, all of them, in the order
of its body, and nothing else under its ticket. -/
theorem Executor.Consistent.stepsOf_completed {ex : Executor} (h : ex.Consistent)
    (ticket : Nat) (body : List Event) (hmem : (ticket, body) ∈ ex.submitted)
    (hdone : ticket ∈ ex.completed) : stepsOf ticket ex.log = tagged (ticket, body) := by
  have hnodup : (ex.submitted.map Prod.fst).Nodup := by
    rw [h.1]
    exact List.nodup_range _
  obtain ⟨-, finished, hcompleted, hstate⟩ := h
  rw [hcompleted] at hdone
  obtain ⟨task, htask, hticket⟩ := List.mem_map.1 hdone
  rcases hstate with ⟨-, hsub, hlog⟩ | ⟨running, stepsDone, stepsLeft, -, hsub, hlog⟩
  · rw [hsub] at hmem hnodup
    rw [List.map_append] at hnodup
    have hfin : (ticket, body) ∈ finished := by
      rcases List.mem_append.1 hmem with hm | hm
      · exact hm
      · exact absurd (List.mem_map.2 ⟨_, hm, rfl⟩)
          (fun hp => List.disjoint_of_nodup_append hnodup
            (List.mem_map.2 ⟨task, htask, hticket⟩) hp)
    rw [hlog, stepsOf_flatMap_of_mem _ _ _ (List.Nodup.of_append_left hnodup) hfin]
  · rw [hsub] at hmem hnodup
    rw [List.map_append] at hnodup
    have hdisj := List.disjoint_of_nodup_append hnodup
      (List.mem_map.2 ⟨task, htask, hticket⟩)
    have hfin : (ticket, body) ∈ finished := by
      rcases List.mem_append.1 hmem with hm | hm
      · exact hm
      · exact absurd (List.mem_map.2 ⟨_, hm, rfl⟩) hdisj
    have hother : running ≠ ticket := by
      rintro rfl
      exact hdisj (by simp)
    have hsplit : stepsOf ticket (finished.flatMap tagged ++ tagged (running, stepsDone))
        = stepsOf ticket (finished.flatMap tagged)
          ++ stepsOf ticket (tagged (running, stepsDone)) := by
      simp [stepsOf]
    rw [hlog, hsplit, stepsOf_flatMap_of_mem _ _ _ (List.Nodup.of_append_left hnodup) hfin,
      stepsOf_tagged]
    simp [hother]

/-- The next ticket of a consistent queue is new: no task finished and no step in the log
has it. -/
theorem Executor.Consistent.nextTicket_fresh {ex : Executor} (h : ex.Consistent) :
    ex.nextTicket ∉ ex.completed ∧ stepsOf ex.nextTicket ex.log = [] := by
  have hnot : ex.nextTicket ∉ ex.submitted.map Prod.fst := by
    rw [h.1]
    simp
  have hsteps := h.log_stepsToCome
  constructor
  · obtain ⟨-, finished, hcompleted, hstate⟩ := h
    rw [hcompleted]
    intro hmem
    obtain ⟨task, htask, hticket⟩ := List.mem_map.1 hmem
    apply hnot
    rcases hstate with ⟨-, hsub, -⟩ | ⟨running, stepsDone, stepsLeft, -, hsub, -⟩
    · rw [hsub]
      exact List.mem_map.2 ⟨task, List.mem_append_left _ htask, hticket⟩
    · rw [hsub]
      exact List.mem_map.2 ⟨task, List.mem_append_left _ htask, hticket⟩
  · have hall := stepsOf_flatMap_of_not_mem ex.nextTicket ex.submitted hnot
    rw [← hsteps] at hall
    have hsplit : stepsOf ex.nextTicket (ex.log ++ ex.stepsToCome)
        = stepsOf ex.nextTicket ex.log ++ stepsOf ex.nextTicket ex.stepsToCome := by
      simp [stepsOf]
    rw [hsplit] at hall
    exact (List.append_eq_nil.1 hall).1

/-- The worker on its own finishes the task it is asked to work until. -/
theorem Executor.workUntil_completed (ticket : Nat) (body : List Event) (n : Nat) :
    ∀ ex : Executor, ex.Consistent → (ticket, body) ∈ ex.submitted → ex.remainingWork ≤ n →
      (Executor.workUntil ticket n ex).Consistent ∧
      (ticket, body) ∈ (Executor.workUntil ticket n ex).submitted ∧
      ticket ∈ (Executor.workUntil ticket n ex).completed := by
  induction n with
  | zero =>
    intro ex hcons hmem hwork
    have hidle := ex.idle_of_remainingWork (by omega)
    have hdrained := hcons.drained hidle.1 hidle.2
    refine ⟨hcons, hmem, ?_⟩
    show ticket ∈ ex.completed
    rw [hdrained.2]
    exact List.mem_map.2 ⟨_, hmem, rfl⟩
  | succ n ih =>
    intro ex hcons hmem hwork
    by_cases hdone : ticket ∈ ex.completed
    · simpa [Executor.workUntil, hdone] using And.intro hcons (And.intro hmem hdone)
    · have hnext := ih ex.work hcons.work (by rw [ex.work_submitted.1]; exact hmem)
        (by rw [ex.work_remainingWork]; omega)
      simpa [Executor.workUntil, hdone] using hnext

/-- The wait is over only when the task waited for is finished, and it does come to an end. -/
theorem Executor.wait_completed (ticket : Nat) (body : List Event) (meanwhile : List Action) :
    ∀ ex : Executor, ex.Consistent → (ticket, body) ∈ ex.submitted →
      (Executor.wait ticket ex meanwhile).Consistent ∧
      (ticket, body) ∈ (Executor.wait ticket ex meanwhile).submitted ∧
      ticket ∈ (Executor.wait ticket ex meanwhile).completed := by
  induction meanwhile with
  | nil =>
    intro ex hcons hmem
    simpa [Executor.wait] using
      Executor.workUntil_completed ticket body ex.remainingWork ex hcons hmem (Nat.le_refl _)
  | cons action rest ih =>
    intro ex hcons hmem
    by_cases hdone : ticket ∈ ex.completed
    · simpa [Executor.wait, hdone] using And.intro hcons (And.intro hmem hdone)
    · have hnext := ih (ex.step action) (hcons.step action)
        (ex.step_submitted action _ hmem)
      simpa [Executor.wait, hdone] using hnext

/-- An operation that submits and does not wait returns with its body behind the tasks
waiting, nothing of it done. -/
theorem Executor.call_without_wait (schedule : List Action) (self : InteractionManager)
    (m_guiRenderer : Option (String → Bool)) (body : List Event) (meanwhile : List Action) :
    (Executor.idle.run schedule).call
        (callingThread Operation.confirmResetDevice self m_guiRenderer) body meanwhile
      = (Executor.idle.run schedule).submit body ∧
    (Executor.idle.run schedule).nextTicket ∉
      ((Executor.idle.run schedule).call
        (callingThread Operation.confirmResetDevice self m_guiRenderer) body
        meanwhile).completed := by
  have hcons : (Executor.idle.run schedule).Consistent := Executor.idle_consistent.run schedule
  have hcall : (Executor.idle.run schedule).call
      (callingThread Operation.confirmResetDevice self m_guiRenderer) body meanwhile
      = (Executor.idle.run schedule).submit body := by
    simp [Executor.call, callingThread, submitOnly]
  refine ⟨hcall, ?_⟩
  rw [hcall]
  simpa [Executor.submit] using hcons.nextTicket_fresh.1

/-- C13: at the call of `resetDevice` nothing of its task is done; at its return, however the
submissions of other threads and the moves of the worker fall before and during the call,
the task is finished, and its steps in the log are `logout` and then `printResetWarning`,
each once. -/
theorem resetDevice_returns_after_its_task (before meanwhile : List Action)
    (self : InteractionManager) (m_guiRenderer : Option (String → Bool)) :
    resetDeviceTicket before ∉ (Executor.idle.run before).completed ∧
      stepsOf (resetDeviceTicket before) (Executor.idle.run before).log = [] ∧
      resetDeviceTicket before ∈
        (resetDevice (Executor.idle.run before) self m_guiRenderer meanwhile).completed ∧
      stepsOf (resetDeviceTicket before)
          (resetDevice (Executor.idle.run before) self m_guiRenderer meanwhile).log
        = [(resetDeviceTicket before, Event.logout),
           (resetDeviceTicket before, Event.printResetWarning)] := by
  have hcons : (Executor.idle.run before).Consistent := Executor.idle_consistent.run before
  have hfresh := hcons.nextTicket_fresh
  have hsubmitted : (resetDeviceTicket before, resetDeviceBody)
      ∈ ((Executor.idle.run before).submit resetDeviceBody).submitted := by
    simp [Executor.submit, resetDeviceTicket]
  have hwait := Executor.wait_completed (resetDeviceTicket before) resetDeviceBody meanwhile
    ((Executor.idle.run before).submit resetDeviceBody) (hcons.submit resetDeviceBody)
    hsubmitted
  have hcall : resetDevice (Executor.idle.run before) self m_guiRenderer meanwhile
      = Executor.wait (resetDeviceTicket before)
          ((Executor.idle.run before).submit resetDeviceBody) meanwhile := by
    simp [resetDevice, Executor.call, callingThread, resetDeviceTicket]
  rw [hcall]
  refine ⟨hfresh.1, hfresh.2, hwait.2.2, ?_⟩
  rw [hwait.1.stepsOf_completed _ _ hwait.2.1 hwait.2.2]
  rfl

/-- A schedule puts its bodies, with tickets in the order of submission, behind what was
submitted before, and gives out as many tickets as it has bodies. -/
theorem Executor.run_submitted_eq (schedule : List Action) :
    ∀ ex : Executor,
      (ex.run schedule).submitted
        = ex.submitted ++ ticketedFrom ex.nextTicket (submittedBodies schedule) := by
  induction schedule with
  | nil => intro ex; simp [Executor.run, submittedBodies, ticketedFrom]
  | cons action rest ih =>
    intro ex
    have hrun : ex.run (action :: rest) = (ex.step action).run rest := by
      simp [Executor.run]
    rw [hrun, ih]
    cases action with
    | submit body => simp [Executor.step, Executor.submit, submittedBodies, ticketedFrom]
    | work =>
      simp [Executor.step, submittedBodies, ex.work_submitted.1, ex.work_submitted.2]

/-- The tickets of bodies submitted one after the other count up from the first. -/
theorem ticketedFrom_tickets (bodies : List (List Event)) :
    ∀ ticket : Nat,
      (ticketedFrom ticket bodies).map Prod.fst = List.range' ticket bodies.length := by
  induction bodies with
  | nil => intro ticket; simp [ticketedFrom]
  | cons body rest ih => intro ticket; simp [ticketedFrom, ih, List.range'_succ]

/-- C14: for every order in which bodies are submitted and the worker moves, the steps done
so far followed by the steps to come are the bodies that the schedule submitted, whole and
one after the other in the order of submission, so the log never mixes two bodies nor leaves
the order; and once the worker has done the work that remains, the log is all of these
bodies, the finished tasks are all the submitted ones, and every submitted body has its steps
in the log once, in its own order, and is finished once. -/
theorem executor_runs_in_submission_order (schedule : List Action) :
    (Executor.idle.run schedule).log ++ (Executor.idle.run schedule).stepsToCome
        = (ticketedFrom 0 (submittedBodies schedule)).flatMap tagged ∧
      (Executor.drained schedule).log
        = (ticketedFrom 0 (submittedBodies schedule)).flatMap tagged ∧
      (Executor.drained schedule).completed = List.range (submittedBodies schedule).length ∧
      (∀ ticket body, (ticket, body) ∈ ticketedFrom 0 (submittedBodies schedule) →
        stepsOf ticket (Executor.drained schedule).log = tagged (ticket, body) ∧
        (Executor.drained schedule).completed.count ticket = 1) := by
  have hcons : (Executor.idle.run schedule).Consistent := Executor.idle_consistent.run schedule
  have hsub : (Executor.idle.run schedule).submitted
      = ticketedFrom 0 (submittedBodies schedule) := by
    simpa [Executor.idle] using Executor.run_submitted_eq schedule Executor.idle
  have hidle := Executor.workN_drains (Executor.idle.run schedule).remainingWork
    (Executor.idle.run schedule) (Nat.le_refl _)
  have hconsDrained : (Executor.drained schedule).Consistent :=
    hcons.workN (Executor.idle.run schedule).remainingWork
  have hsubDrained : (Executor.drained schedule).submitted
      = ticketedFrom 0 (submittedBodies schedule) := by
    unfold Executor.drained
    rw [Executor.workN_submitted, hsub]
  have hdrained := hconsDrained.drained hidle.1 hidle.2
  rw [hsubDrained] at hdrained
  have htickets : (Executor.drained schedule).completed
      = List.range (submittedBodies schedule).length := by
    rw [hdrained.2, ticketedFrom_tickets, List.range_eq_range']
  refine ⟨?_, hdrained.1, htickets, ?_⟩
  · rw [← hsub]
    exact hcons.log_stepsToCome
  · intro ticket body hmem
    have hdone : ticket ∈ (Executor.drained schedule).completed := by
      rw [hdrained.2]
      exact List.mem_map.2 ⟨_, hmem, rfl⟩
    refine ⟨hconsDrained.stepsOf_completed ticket body (by rw [hsubDrained]; exact hmem) hdone,
      ?_⟩
    rw [htickets] at hdone ⊢
    exact List.count_eq_one_of_mem (List.nodup_range _) hdone

/-- Instance of C14 at `busySchedule`, for the body submitted second. -/
theorem executor_runs_in_submission_order_witness :
    (1, [Event.microphoneOff]) ∈ ticketedFrom 0 (submittedBodies busySchedule) ∧
      stepsOf 1 (Executor.drained busySchedule).log = [(1, Event.microphoneOff)] ∧
      (Executor.drained busySchedule).completed.count 1 = 1 :=
  have h := (executor_runs_in_submission_order busySchedule).2.2.2 1 [Event.microphoneOff]
    (by decide)
  ⟨by decide, h.1, h.2⟩

end sampleApp
end alexaClientSDK
